import Mathlib

/-!
# BlockSci Python bridge: range conversion

A shallow embedding of `blockscipy/src/range_conversion.cpp`: the per-element
converters (`NumpyConverter`, `BlockSciTypeConverter`), the materializers that
drain a range into a Python list or a numpy array, and the joiners; and of the
pickle functions of the hash types in `blockscipy/src/chain/block/block_py.cpp`.

A lazy range is represented by the list of the elements it yields, in pull
order.  A random-access sized range also carries the count it reports through
`ranges::size`, which the materializers read before they pull anything.
-/

namespace BlockSci

/-! ## Ranges -/

/-- The forward-only type-erased view `ranges::any_view<T>`: `elems` is what it
yields, in pull order. -/
structure any_view (T : Type) where
  elems : List T
deriving DecidableEq, Repr

/-- The view `ranges::any_view<T, random_access_sized>` (`random_range<T>` in the
source): `elems` is what it yields, in pull order, and `size` is the count it
reports through `ranges::size` before any element is pulled. -/
structure random_range (T : Type) where
  elems : List T
  size : Nat
deriving DecidableEq, Repr

/-- A range that can be iterated (`RANGES_FOR`, `view::transform`, `view::join`):
`pulls r` is the list of values one pass over `r` yields. -/
class Range (Rng : Type) (T : outParam Type) where
  pulls : Rng → List T

instance any_view.instRange (T : Type) : Range (any_view T) T where
  pulls t := t.elems

instance random_range.instRange (T : Type) : Range (random_range T) T where
  pulls t := t.elems

/-- The adaptor `ranges::view::transform(t, f)` on a forward-only view. -/
def any_view.transform {T R : Type} (t : any_view T) (f : T → R) : any_view R :=
  ⟨t.elems.map f⟩

/-- The adaptor `ranges::view::transform(t, f)` on a sized view: the adaptor
forwards the size of the range it wraps. -/
def random_range.transform {T R : Type} (t : random_range T) (f : T → R) : random_range R :=
  ⟨t.elems.map f, t.size⟩

/-! ## pybind11 containers -/

namespace pybind11

/-- A `pybind11::list`.  `items` are its slots in index order; `none` is a slot
holding no object, which is what `PyList_New` leaves in every slot it creates. -/
structure list (T : Type) where
  items : List (Option T)
deriving DecidableEq, Repr

/-- The constructor `explicit list(size_t size = 0)`, which is `PyList_New(size)`:
a list that already has `size` slots, none of them holding an object. -/
def list.ofSize {T : Type} (size : Nat) : list T :=
  ⟨List.replicate size none⟩

/-- The method `list::append`, which is `PyList_Append`: one more slot at the end. -/
def list.append {T : Type} (l : list T) (val : T) : list T :=
  ⟨l.items ++ [some val]⟩

/-- The method `list::size`, which is `PyList_Size`. -/
def list.size {T : Type} (l : list T) : Nat :=
  l.items.length

/-- A one-dimensional `pybind11::array_t<R>`.  `data` is its buffer; `none` is an
element that was allocated and never written. -/
structure array_t (R : Type) where
  data : List (Option R)
deriving DecidableEq, Repr

/-- The constructor `array_t(count)`: a fresh buffer of `count` elements, none of
them written. -/
def array_t.ofSize {R : Type} (count : Nat) : array_t R :=
  ⟨List.replicate count none⟩

/-- The constructor `array_t(count, ptr)`: a buffer of `count` elements copied
from `ptr`. -/
def array_t.ofData {R : Type} (count : Nat) (ptr : List R) : array_t R :=
  ⟨(ptr.take count).map some⟩

/-- The method `array_t::size`. -/
def array_t.size {R : Type} (a : array_t R) : Nat :=
  a.data.length

end pybind11

/-! ## Machine integers

Each fixed-width integer type is its range of mathematical values.  A
`static_cast` to an integer type keeps the value when it is in range and
otherwise wraps it modulo `2 ^ width`. -/

/-- The unsigned reading of `x` at `bits` bits: `x` modulo `2 ^ bits`. -/
def wrapUnsigned (bits : Nat) (x : Int) : Nat :=
  (x % (2 : Int) ^ bits).toNat

/-- The two's-complement reading of `x` at `bits` bits: the value congruent to
`x` modulo `2 ^ bits` that lies in `[-2 ^ (bits - 1), 2 ^ (bits - 1))`. -/
def wrapSigned (bits : Nat) (x : Int) : Int :=
  if x % (2 : Int) ^ bits < (2 : Int) ^ (bits - 1) then x % (2 : Int) ^ bits
  else x % (2 : Int) ^ bits - (2 : Int) ^ bits

/-- The type `uint16_t`. -/
structure uint16_t where
  val : Nat
  isLt : val < 2 ^ 16
deriving DecidableEq, Repr

/-- The type `int16_t`. -/
structure int16_t where
  val : Int
  isGe : -(2 : Int) ^ 15 ≤ val
  isLt : val < (2 : Int) ^ 15
deriving DecidableEq, Repr

/-- The type `uint32_t`. -/
structure uint32_t where
  val : Nat
  isLt : val < 2 ^ 32
deriving DecidableEq, Repr

/-- The type `int32_t`. -/
structure int32_t where
  val : Int
  isGe : -(2 : Int) ^ 31 ≤ val
  isLt : val < (2 : Int) ^ 31
deriving DecidableEq, Repr

/-- The type `uint64_t`. -/
structure uint64_t where
  val : Nat
  isLt : val < 2 ^ 64
deriving DecidableEq, Repr

/-- The type `int64_t`. -/
structure int64_t where
  val : Int
  isGe : -(2 : Int) ^ 63 ≤ val
  isLt : val < (2 : Int) ^ 63
deriving DecidableEq, Repr

/-- The conversion `static_cast<uint16_t>(x)`. -/
def uint16_t.static_cast (x : Int) : uint16_t :=
  ⟨wrapUnsigned 16 x, by unfold wrapUnsigned; omega⟩

/-- The conversion `static_cast<int16_t>(x)`. -/
def int16_t.static_cast (x : Int) : int16_t :=
  ⟨wrapSigned 16 x, by unfold wrapSigned; split_ifs <;> omega,
    by unfold wrapSigned; split_ifs <;> omega⟩

/-- The conversion `static_cast<uint32_t>(x)`. -/
def uint32_t.static_cast (x : Int) : uint32_t :=
  ⟨wrapUnsigned 32 x, by unfold wrapUnsigned; omega⟩

/-- The conversion `static_cast<int32_t>(x)`. -/
def int32_t.static_cast (x : Int) : int32_t :=
  ⟨wrapSigned 32 x, by unfold wrapSigned; split_ifs <;> omega,
    by unfold wrapSigned; split_ifs <;> omega⟩

/-- The conversion `static_cast<int64_t>(x)`. -/
def int64_t.static_cast (x : Int) : int64_t :=
  ⟨wrapSigned 64 x, by unfold wrapSigned; split_ifs <;> omega,
    by unfold wrapSigned; split_ifs <;> omega⟩

/-! ## Hash values -/

/-- The blob type `base_blob<BITS>` behind `blocksci::uint256` and
`blocksci::uint160`: `WIDTH = BITS / 8` bytes, in storage order. -/
structure base_blob (WIDTH : Nat) where
  data : List (Fin 256)
  size_eq : data.length = WIDTH
deriving DecidableEq, Repr

/-- The type `blocksci::uint256`. -/
abbrev uint256 := base_blob 32

/-- The type `blocksci::uint160`. -/
abbrev uint160 := base_blob 20

/-- The number a blob stands for: its bytes read least significant first. -/
def base_blob.value {WIDTH : Nat} (b : base_blob WIDTH) : Nat :=
  Nat.ofDigits 256 (b.data.map Fin.val)

/-- The lowercase hexadecimal numeral of `n`, most significant digit first and
without leading zeros (the empty string for 0). -/
def hexDigits (n : Nat) : List Char :=
  (Nat.digits 16 n).reverse.map Nat.digitChar

/-- Modelled from the spec: `base_blob::GetHex` is declared in
`blocksci/core/bitcoin_uint256.hpp`, which is not among the sources.  The spec
describes the digest of a hash as "the value's lowercase hexadecimal digest,
left-padded with leading zero digits as needed so the array is always exactly 40
bytes" (64 for a 256-bit hash): two digits per byte of the blob. -/
def base_blob.GetHex {WIDTH : Nat} (b : base_blob WIDTH) : List Char :=
  List.leftpad (2 * WIDTH) '0' (hexDigits b.value)

/-- The algorithm `std::copy_n(first, n, out)` reading from a string: the `n`
characters copied, or `none` when the string has fewer than `n` characters and
the copy would read past its end. -/
def copy_n (src : List Char) (n : Nat) : Option (List Char) :=
  if n ≤ src.length then some (src.take n) else none

/-- A character is a lowercase hexadecimal digit, `0`-`9` or `a`-`f`. -/
def isLowerHexDigit (c : Char) : Bool :=
  ('0' ≤ c && c ≤ '9') || ('a' ≤ c && c ≤ 'f')

/-! ## Per-element converters -/

/-- The overload set `NumpyConverter::operator()`: `call` is the overload chosen
for an argument of type `T`, and `R` is its return type. -/
class NumpyConverter (T : Type) (R : outParam Type) where
  call : T → R

/-- The overload `template <typename T> T operator()(const T &val)`: every type
that has no overload of its own is returned as it is. -/
instance (priority := low) NumpyConverter.instTemplate (T : Type) : NumpyConverter T T where
  call val := val

/-- The overload `std::array<char, 64> operator()(const blocksci::uint256 &val)`.
The result is `none` when the copy of 64 characters would read past the end of
`hexStr`. -/
instance NumpyConverter.instUint256 : NumpyConverter uint256 (Option (List Char)) where
  call val :=
    let hexStr := val.GetHex
    copy_n hexStr 64

/-- The overload `std::array<char, 40> operator()(const blocksci::uint160 &val)`.
The result is `none` when the copy of 40 characters would read past the end of
`hexStr`. -/
instance NumpyConverter.instUint160 : NumpyConverter uint160 (Option (List Char)) where
  call val :=
    let hexStr := val.GetHex
    copy_n hexStr 40

/-- The overload set `BlockSciTypeConverter::operator()`: `call` is the overload
chosen for an argument of type `T`, and `R` is its return type. -/
class BlockSciTypeConverter (T : Type) (R : outParam Type) where
  call : T → R

/-- The overload `int64_t operator()(uint16_t val)`. -/
instance BlockSciTypeConverter.instUint16 : BlockSciTypeConverter uint16_t int64_t where
  call val := int64_t.static_cast val.val

/-- The overload `int64_t operator()(int16_t val)`. -/
instance BlockSciTypeConverter.instInt16 : BlockSciTypeConverter int16_t int64_t where
  call val := int64_t.static_cast val.val

/-- The overload `int64_t operator()(uint32_t val)`. -/
instance BlockSciTypeConverter.instUint32 : BlockSciTypeConverter uint32_t int64_t where
  call val := int64_t.static_cast val.val

/-- The overload `int64_t operator()(int32_t val)`. -/
instance BlockSciTypeConverter.instInt32 : BlockSciTypeConverter int32_t int64_t where
  call val := int64_t.static_cast val.val

/-- The overload `int64_t operator()(uint64_t val)`, marked `// Potential overflow`
in the source. -/
instance BlockSciTypeConverter.instUint64 : BlockSciTypeConverter uint64_t int64_t where
  call val := int64_t.static_cast val.val

/-- The overload `template <typename T> auto operator()(const ranges::optional<T> &val)`:
converts the held value when there is one and returns `ranges::nullopt` otherwise. -/
instance BlockSciTypeConverter.instOptional (T R : Type) [BlockSciTypeConverter T R] :
    BlockSciTypeConverter (Option T) (Option R) where
  call val :=
    match val with
    | some v => some (BlockSciTypeConverter.call v)
    | none => none

/-! ## numpy element types -/

namespace pybind11

/-- A numpy `dtype` as far as the bridge is concerned: the kind character (`i` a
signed integer, `u` an unsigned integer) and the size of one element in bytes. -/
structure dtype where
  kind : Char
  itemsize : Nat
deriving DecidableEq, Repr

/-- The trait `pybind11::detail::npy_format_descriptor<R>`: the numpy `dtype` an
`array_t<R>` is created with. -/
class npy_format_descriptor (R : Type) where
  dtype : dtype

instance npy_format_descriptor.instInt16 : npy_format_descriptor int16_t := ⟨⟨'i', 2⟩⟩

instance npy_format_descriptor.instUint16 : npy_format_descriptor uint16_t := ⟨⟨'u', 2⟩⟩

instance npy_format_descriptor.instInt32 : npy_format_descriptor int32_t := ⟨⟨'i', 4⟩⟩

instance npy_format_descriptor.instUint32 : npy_format_descriptor uint32_t := ⟨⟨'u', 4⟩⟩

instance npy_format_descriptor.instInt64 : npy_format_descriptor int64_t := ⟨⟨'i', 8⟩⟩

instance npy_format_descriptor.instUint64 : npy_format_descriptor uint64_t := ⟨⟨'u', 8⟩⟩

/-- The method `array_t::dtype`. -/
def array_t.dtype {R : Type} [npy_format_descriptor R] (_ : array_t R) : dtype :=
  npy_format_descriptor.dtype R

end pybind11

/-! ## Array materializers -/

/-- The algorithm `ranges::copy(rng, out)` into the buffer `buf`, the next write
going to offset `i`: each element is written at the next offset.  The result is
`none` when an element would be written past the end of the buffer. -/
def ranges_copy {R : Type} : List R → List (Option R) → Nat → Option (List (Option R))
  | [], buf, _ => some buf
  | x :: xs, buf, i =>
    if i < buf.length then ranges_copy xs (buf.set i (some x)) (i + 1) else none

/-- The template `convertRandomSizedNumpy`: transforms the range with
`NumpyConverter`, reads its size, allocates an array of that many elements and
copies the transformed range into the array's buffer. -/
def convertRandomSizedNumpy {T R : Type} [NumpyConverter T R] (t : random_range T) :
    Option (pybind11.array_t R) :=
  let numpy_converted := t.transform NumpyConverter.call
  let rangeSize := numpy_converted.size
  let ret : pybind11.array_t R := pybind11.array_t.ofSize rangeSize
  (ranges_copy (Range.pulls numpy_converted) ret.data 0).map pybind11.array_t.mk

/-- The template `convertInputNumpy`: collects the transformed range in a vector
and builds the array from the vector's size and data. -/
def convertInputNumpy {Rng T R : Type} [Range Rng T] [NumpyConverter T R] (t : Rng) :
    pybind11.array_t R :=
  let ret : List R := (Range.pulls t).map NumpyConverter.call
  pybind11.array_t.ofData ret.length ret

/-! ## Type narrowing of ranges -/

/-- The template `convertInputBlockSci`: the range transformed with
`BlockSciTypeConverter`, as a forward-only view. -/
def convertInputBlockSci {T R : Type} [BlockSciTypeConverter T R] (t : any_view T) : any_view R :=
  t.transform BlockSciTypeConverter.call

/-- The template `convertRandomSizedBlockSci`: the range transformed with
`BlockSciTypeConverter`, as a sized view. -/
def convertRandomSizedBlockSci {T R : Type} [BlockSciTypeConverter T R] (t : random_range T) :
    random_range R :=
  t.transform BlockSciTypeConverter.call

/-! ## Joining -/

/-- The adaptor `ranges::view::join(t)`, as the list of what it yields: the outer
range is iterated and, for each inner range it yields, that inner range is
iterated to its end before the outer range advances. -/
def view_join {Outer Inner T : Type} [Range Outer Inner] [Range Inner T] (t : Outer) : List T :=
  (Range.pulls t).foldl
    (fun out inner => (Range.pulls inner).foldl (fun out a => out ++ [a]) out) []

/-! ## List materializers -/

/-- The template `convertRandomSizedPy`: reads the size, builds
`pybind11::list list{rangeSize}`, then appends every element of the range. -/
def convertRandomSizedPy {T : Type} (t : random_range T) : pybind11.list T :=
  let rangeSize := t.size
  let list : pybind11.list T := pybind11.list.ofSize rangeSize
  (Range.pulls t).foldl (fun l a => l.append a) list

/-- The template `convertInputPy`: starts from the empty `pybind11::list` and
appends every element of the range. -/
def convertInputPy {Rng T : Type} [Range Rng T] (t : Rng) : pybind11.list T :=
  let list : pybind11.list T := pybind11.list.ofSize 0
  (Range.pulls t).foldl (fun l a => l.append a) list

/-! ## The overload sets that dispatch on the range type -/

/-- The overload set `PythonConversionTypeConverter::operator()`: `call` is the
overload chosen for a range of type `In`, and `Out` is its return type. -/
class PythonConversionTypeConverter (In : Type) (Out : outParam Type) where
  call : In → Out

instance PythonConversionTypeConverter.instOptInt16 :
    PythonConversionTypeConverter (any_view (Option int16_t)) (any_view (Option int64_t)) where
  call t := convertInputBlockSci t

instance PythonConversionTypeConverter.instOptUint16 :
    PythonConversionTypeConverter (any_view (Option uint16_t)) (any_view (Option int64_t)) where
  call t := convertInputBlockSci t

instance PythonConversionTypeConverter.instOptInt32 :
    PythonConversionTypeConverter (any_view (Option int32_t)) (any_view (Option int64_t)) where
  call t := convertInputBlockSci t

instance PythonConversionTypeConverter.instOptUint32 :
    PythonConversionTypeConverter (any_view (Option uint32_t)) (any_view (Option int64_t)) where
  call t := convertInputBlockSci t

instance PythonConversionTypeConverter.instOptUint64 :
    PythonConversionTypeConverter (any_view (Option uint64_t)) (any_view (Option int64_t)) where
  call t := convertInputBlockSci t

instance PythonConversionTypeConverter.instSizedOptInt16 :
    PythonConversionTypeConverter (random_range (Option int16_t))
      (random_range (Option int64_t)) where
  call t := convertRandomSizedBlockSci t

instance PythonConversionTypeConverter.instSizedOptUint16 :
    PythonConversionTypeConverter (random_range (Option uint16_t))
      (random_range (Option int64_t)) where
  call t := convertRandomSizedBlockSci t

instance PythonConversionTypeConverter.instSizedOptInt32 :
    PythonConversionTypeConverter (random_range (Option int32_t))
      (random_range (Option int64_t)) where
  call t := convertRandomSizedBlockSci t

instance PythonConversionTypeConverter.instSizedOptUint32 :
    PythonConversionTypeConverter (random_range (Option uint32_t))
      (random_range (Option int64_t)) where
  call t := convertRandomSizedBlockSci t

instance PythonConversionTypeConverter.instSizedOptUint64 :
    PythonConversionTypeConverter (random_range (Option uint64_t))
      (random_range (Option int64_t)) where
  call t := convertRandomSizedBlockSci t

instance PythonConversionTypeConverter.instString :
    PythonConversionTypeConverter (any_view String) (pybind11.list String) where
  call t := convertInputPy t

instance PythonConversionTypeConverter.instSizedString :
    PythonConversionTypeConverter (random_range String) (pybind11.list String) where
  call t := convertRandomSizedPy t

instance PythonConversionTypeConverter.instInt64 :
    PythonConversionTypeConverter (any_view int64_t) (pybind11.array_t int64_t) where
  call t := convertInputNumpy t

instance PythonConversionTypeConverter.instUint64 :
    PythonConversionTypeConverter (any_view uint64_t) (pybind11.array_t uint64_t) where
  call t := convertInputNumpy t

instance PythonConversionTypeConverter.instInt32 :
    PythonConversionTypeConverter (any_view int32_t) (pybind11.array_t int32_t) where
  call t := convertInputNumpy t

instance PythonConversionTypeConverter.instUint32 :
    PythonConversionTypeConverter (any_view uint32_t) (pybind11.array_t uint32_t) where
  call t := convertInputNumpy t

instance PythonConversionTypeConverter.instInt16 :
    PythonConversionTypeConverter (any_view int16_t) (pybind11.array_t int16_t) where
  call t := convertInputNumpy t

instance PythonConversionTypeConverter.instUint16 :
    PythonConversionTypeConverter (any_view uint16_t) (pybind11.array_t uint16_t) where
  call t := convertInputNumpy t

instance PythonConversionTypeConverter.instUint160 :
    PythonConversionTypeConverter (any_view uint160)
      (pybind11.array_t (Option (List Char))) where
  call t := convertInputNumpy t

instance PythonConversionTypeConverter.instUint256 :
    PythonConversionTypeConverter (any_view uint256)
      (pybind11.array_t (Option (List Char))) where
  call t := convertInputNumpy t

instance PythonConversionTypeConverter.instSizedInt64 :
    PythonConversionTypeConverter (random_range int64_t)
      (Option (pybind11.array_t int64_t)) where
  call t := convertRandomSizedNumpy t

instance PythonConversionTypeConverter.instSizedUint64 :
    PythonConversionTypeConverter (random_range uint64_t)
      (Option (pybind11.array_t uint64_t)) where
  call t := convertRandomSizedNumpy t

instance PythonConversionTypeConverter.instSizedInt32 :
    PythonConversionTypeConverter (random_range int32_t)
      (Option (pybind11.array_t int32_t)) where
  call t := convertRandomSizedNumpy t

instance PythonConversionTypeConverter.instSizedUint32 :
    PythonConversionTypeConverter (random_range uint32_t)
      (Option (pybind11.array_t uint32_t)) where
  call t := convertRandomSizedNumpy t

instance PythonConversionTypeConverter.instSizedInt16 :
    PythonConversionTypeConverter (random_range int16_t)
      (Option (pybind11.array_t int16_t)) where
  call t := convertRandomSizedNumpy t

instance PythonConversionTypeConverter.instSizedUint16 :
    PythonConversionTypeConverter (random_range uint16_t)
      (Option (pybind11.array_t uint16_t)) where
  call t := convertRandomSizedNumpy t

instance PythonConversionTypeConverter.instSizedUint160 :
    PythonConversionTypeConverter (random_range uint160)
      (Option (pybind11.array_t (Option (List Char)))) where
  call t := convertRandomSizedNumpy t

instance PythonConversionTypeConverter.instSizedUint256 :
    PythonConversionTypeConverter (random_range uint256)
      (Option (pybind11.array_t (Option (List Char)))) where
  call t := convertRandomSizedNumpy t

/-- The overload set `ConvertedRangeTypeTagConverter::operator()`: `call` is the
overload chosen for a range of type `In`, and `Out` is its return type.  The
source writes the overloads on ranges of ranges, and those on ranges of optional
ranges, out for the element types `Input`, `Output`, `Transaction`, `Address` and
`TaggedAddress`; all have the same body, so the element type is a parameter here. -/
class ConvertedRangeTypeTagConverter (In : Type) (Out : outParam Type) where
  call : In → Out

instance ConvertedRangeTypeTagConverter.instSizedSized (T : Type) :
    ConvertedRangeTypeTagConverter (random_range (random_range T)) (any_view T) where
  call t := ⟨view_join t⟩

instance ConvertedRangeTypeTagConverter.instSizedInput (T : Type) :
    ConvertedRangeTypeTagConverter (random_range (any_view T)) (any_view T) where
  call t := ⟨view_join t⟩

instance ConvertedRangeTypeTagConverter.instInputSized (T : Type) :
    ConvertedRangeTypeTagConverter (any_view (random_range T)) (any_view T) where
  call t := ⟨view_join t⟩

instance ConvertedRangeTypeTagConverter.instInputInput (T : Type) :
    ConvertedRangeTypeTagConverter (any_view (any_view T)) (any_view T) where
  call t := ⟨view_join t⟩

/-! ## Flattening optional nested ranges -/

/-- Modelled from the spec: the predicate `isOptional` is declared in
`range_conversion.hpp`, which is not among the sources.  The spec has the
flattening "filter out empty wrappers", so the predicate holds of an optional
exactly when it holds a value. -/
def isOptional {T : Type} (optional : Option T) : Bool :=
  optional.isSome

/-- Modelled from the spec: the function `derefOptional` is declared in
`range_conversion.hpp`, which is not among the sources.  The spec has the
flattening join "the present ones", so the function returns the value an optional
holds; it is applied only to optionals that passed `isOptional`. -/
def derefOptional {T : Type} (optional : Option T) (h : isOptional optional = true) : T :=
  optional.get h

/-- The adaptor `ranges::view::filter(t, pred)`, as the list of what it yields: the
elements of `t` on which `pred` holds, in the order of `t`, each with the fact
that it passed. -/
def view_filter {T : Type} (t : List T) (pred : T → Bool) : List {a : T // pred a = true} :=
  t.filterMap (fun a => if h : pred a = true then some ⟨a, h⟩ else none)

/-- The template `flattenNestedOptional`: the range filtered with `isOptional`,
transformed with `derefOptional` and joined, as a forward-only view. -/
def flattenNestedOptional {Rng Inner T : Type} [Range Rng (Option Inner)] [Range Inner T]
    (t : Rng) : any_view T :=
  let filtered : any_view {o : Option Inner // isOptional o = true} :=
    ⟨view_filter (Range.pulls t) isOptional⟩
  let present : any_view Inner := filtered.transform (fun o => derefOptional o.1 o.2)
  ⟨view_join present⟩

instance ConvertedRangeTypeTagConverter.instSizedOptSized (T : Type) :
    ConvertedRangeTypeTagConverter (random_range (Option (random_range T))) (any_view T) where
  call t := flattenNestedOptional t

instance ConvertedRangeTypeTagConverter.instSizedOptInput (T : Type) :
    ConvertedRangeTypeTagConverter (random_range (Option (any_view T))) (any_view T) where
  call t := flattenNestedOptional t

instance ConvertedRangeTypeTagConverter.instInputOptSized (T : Type) :
    ConvertedRangeTypeTagConverter (any_view (Option (random_range T))) (any_view T) where
  call t := flattenNestedOptional t

instance ConvertedRangeTypeTagConverter.instInputOptInput (T : Type) :
    ConvertedRangeTypeTagConverter (any_view (Option (any_view T))) (any_view T) where
  call t := flattenNestedOptional t

/-! ## Domain handles -/

/-- Modelled from the spec: `blocksci::AnyScript` is declared in
`blocksci/scripts/script_variant.hpp`, which is not among the sources.  The spec
calls what a handle resolves to a "concrete tagged-variant payload (e.g., one of
several script shapes)": a tag for the shape and the payload. -/
structure AnyScript where
  shape : Nat
  payload : Nat
deriving DecidableEq, Repr

/-- Modelled from the spec: `blocksci::Address` is declared in
`blocksci/address/address.hpp`, which is not among the sources.  The spec calls it
"an opaque reference to a polymorphic domain entity that must be resolved to a
concrete variant before export", the resolution being a lookup that is "assumed
total for valid handles": the handle is held together with the variant that
`getScript` resolves it to. -/
structure Address where
  handle : Nat
  getScript : AnyScript
deriving DecidableEq, Repr

/-- The overload `blocksci::AnyScript operator()(const blocksci::Address &address)`. -/
instance BlockSciTypeConverter.instAddress : BlockSciTypeConverter Address AnyScript where
  call address := address.getScript

instance PythonConversionTypeConverter.instAddress :
    PythonConversionTypeConverter (any_view Address) (any_view AnyScript) where
  call t := convertInputBlockSci t

instance PythonConversionTypeConverter.instOptAddress :
    PythonConversionTypeConverter (any_view (Option Address)) (any_view (Option AnyScript)) where
  call t := convertInputBlockSci t

instance PythonConversionTypeConverter.instSizedAddress :
    PythonConversionTypeConverter (random_range Address) (random_range AnyScript) where
  call t := convertRandomSizedBlockSci t

instance PythonConversionTypeConverter.instSizedOptAddress :
    PythonConversionTypeConverter (random_range (Option Address))
      (random_range (Option AnyScript)) where
  call t := convertRandomSizedBlockSci t

/-! ## Timestamps -/

/-- The type `std::chrono::system_clock::time_point` of a clock one tick of which
lasts `num / den` nanoseconds (the ratio `system_clock::period` over `std::nano`,
in lowest terms): `time_since_epoch` is the count of ticks since the epoch. -/
structure time_point (num den : Nat) where
  time_since_epoch : int64_t
deriving DecidableEq, Repr

/-- Modelled from the spec: the struct `NumpyDatetime` is declared in
`range_conversion.hpp`, which is not among the sources.  The spec has a timestamp
exported as "a signed 64-bit integer counting nanoseconds since a fixed epoch". -/
structure NumpyDatetime where
  time : int64_t
deriving DecidableEq, Repr

/-- A product of two 64-bit signed values: `none` when it does not fit 64 signed
bits, where the multiplication overflows. -/
def checked_mul_int64 (a b : Int) : Option Int :=
  if -(2 : Int) ^ 63 ≤ a * b ∧ a * b < (2 : Int) ^ 63 then some (a * b) else none

/-- The conversion `std::chrono::duration_cast<std::chrono::nanoseconds>(d)` of a
duration of `count` ticks, the conversion factor being `num / den`.  The four
cases are those of the standard: the count itself, the count times `num`, the
count divided by `den`, or the count times `num` divided by `den`, the division
truncating toward zero.  The result is `none` when the multiplication overflows
or the divisor is zero. -/
def duration_cast_nanoseconds (num den : Nat) (count : int64_t) : Option int64_t :=
  if den = 0 then none
  else if num = 1 ∧ den = 1 then some (int64_t.static_cast count.val)
  else if den = 1 then
    (checked_mul_int64 count.val num).map int64_t.static_cast
  else if num = 1 then some (int64_t.static_cast (Int.tdiv count.val den))
  else
    (checked_mul_int64 count.val num).map (fun p => int64_t.static_cast (Int.tdiv p den))

/-- The overload
`NumpyDatetime operator()(const std::chrono::system_clock::time_point &val)`:
the count of `duration_cast<nanoseconds>(val.time_since_epoch())`.  The result is
`none` when the conversion is undefined. -/
instance NumpyConverter.instTimePoint (num den : Nat) :
    NumpyConverter (time_point num den) (Option NumpyDatetime) where
  call val := (duration_cast_nanoseconds num den val.time_since_epoch).map NumpyDatetime.mk

instance PythonConversionTypeConverter.instTimePoint (num den : Nat) :
    PythonConversionTypeConverter (any_view (time_point num den))
      (pybind11.array_t (Option NumpyDatetime)) where
  call t := convertInputNumpy t

instance PythonConversionTypeConverter.instSizedTimePoint (num den : Nat) :
    PythonConversionTypeConverter (random_range (time_point num den))
      (pybind11.array_t (Option NumpyDatetime)) where
  call t := convertInputNumpy t

/-! ## Booleans -/

/-- Modelled from the spec: the struct `NumpyBool` is declared in
`range_conversion.hpp`, which is not among the sources.  The spec has a boolean
exported as "a 1-byte flag"; the overload of `NumpyConverter` builds it from the
boolean alone. -/
structure NumpyBool where
  val : Bool
deriving DecidableEq, Repr

/-- The byte a `NumpyBool` occupies in a buffer: 1 for `true` and 0 for `false`. -/
def NumpyBool.flag (b : NumpyBool) : Fin 256 :=
  if b.val then 1 else 0

/-- Modelled from the spec: the specialisation of `npy_format_descriptor` for
`NumpyBool` is declared in `range_conversion.hpp`, which is not among the sources.
The spec has the boolean flag one byte wide and "distinguishable from the canonical
integer encodings": the numpy boolean kind. -/
instance pybind11.npy_format_descriptor.instNumpyBool :
    pybind11.npy_format_descriptor NumpyBool := ⟨⟨'b', 1⟩⟩

/-- The overload `NumpyBool operator()(const bool &val)`. -/
instance NumpyConverter.instBool : NumpyConverter Bool NumpyBool where
  call val := ⟨val⟩

instance PythonConversionTypeConverter.instBool :
    PythonConversionTypeConverter (any_view Bool) (pybind11.array_t NumpyBool) where
  call t := convertInputNumpy t

instance PythonConversionTypeConverter.instSizedBool :
    PythonConversionTypeConverter (random_range Bool) (Option (pybind11.array_t NumpyBool)) where
  call t := convertRandomSizedNumpy t

/-! ## The overloads as a table

The two overload sets dispatch at compile time, on the type of the range.  To
state facts about which overloads exist, the definitions of `operator()` in
lines 147 to 259 of `range_conversion.cpp` are listed here, one entry for each
definition and in source order: the line, the overload set, the parameter type,
the return type and the function the body calls. -/

/-- The C++ types that occur in the signatures of the overloads. -/
inductive CppType where
  | int16_t
  | uint16_t
  | int32_t
  | uint32_t
  | int64_t
  | uint64_t
  | bool
  | time_point
  | uint160
  | uint256
  | NumpyBool
  | NumpyDatetime
  | array_char (n : Nat)
  | bytes
  | list
  | string
  | AddressType_Enum
  | Address
  | AnyScript
  | Input
  | Output
  | Transaction
  | TaggedAddress
  | OutputRange
  | InputRange
  | optional (T : CppType)
  | any_view (T : CppType)
  | random_range (T : CppType)
  | array_t (T : CppType)
deriving DecidableEq, Repr

/-- The two capabilities of a range: `Sequential` is `ranges::any_view<T>` and
`Sized` is `ranges::any_view<T, random_access_sized>`. -/
inductive Capability where
  | Sequential
  | Sized
deriving DecidableEq, Repr

/-- The two overload sets. -/
inductive OverloadSet where
  | PythonConversionTypeConverter
  | ConvertedRangeTypeTagConverter
deriving DecidableEq, Repr

/-- The functions the bodies of the overloads call; `join` is the body
`return {ranges::view::join(std::move(t))}`. -/
inductive Body where
  | convertInputBlockSci
  | convertRandomSizedBlockSci
  | convertInputPy
  | convertRandomSizedPy
  | convertInputNumpy
  | convertRandomSizedNumpy
  | join
  | flattenNestedOptional
deriving DecidableEq, Repr

/-- One definition of `operator()`. -/
structure Overload where
  line : Nat
  set : OverloadSet
  arg : CppType
  ret : CppType
  body : Body
deriving DecidableEq, Repr

/-- The capability of a range type; `none` for a type that is not a range. -/
def CppType.capability : CppType → Option Capability
  | .any_view _ => some .Sequential
  | .random_range _ => some .Sized
  | _ => none

/-- The element type of a range type or of an array; any other type, such as
`pybind11::list`, whose entries are Python objects, stands for itself. -/
def CppType.element : CppType → CppType
  | .any_view T => T
  | .random_range T => T
  | .array_t T => T
  | T => T

/-- The other capability. -/
def Capability.other : Capability → Capability
  | .Sequential => .Sized
  | .Sized => .Sequential

/-- Part of the table: the overloads that narrow the element type, lines 147 to 161. -/
def overloads_narrowing : List Overload := [
  Overload.mk 147 OverloadSet.PythonConversionTypeConverter
    (CppType.any_view (CppType.optional CppType.int16_t))
    (CppType.any_view (CppType.optional CppType.int64_t))
    Body.convertInputBlockSci,
  Overload.mk 148 OverloadSet.PythonConversionTypeConverter
    (CppType.any_view (CppType.optional CppType.uint16_t))
    (CppType.any_view (CppType.optional CppType.int64_t))
    Body.convertInputBlockSci,
  Overload.mk 149 OverloadSet.PythonConversionTypeConverter
    (CppType.any_view (CppType.optional CppType.int32_t))
    (CppType.any_view (CppType.optional CppType.int64_t))
    Body.convertInputBlockSci,
  Overload.mk 150 OverloadSet.PythonConversionTypeConverter
    (CppType.any_view (CppType.optional CppType.uint32_t))
    (CppType.any_view (CppType.optional CppType.int64_t))
    Body.convertInputBlockSci,
  Overload.mk 151 OverloadSet.PythonConversionTypeConverter
    (CppType.any_view (CppType.optional CppType.uint64_t))
    (CppType.any_view (CppType.optional CppType.int64_t))
    Body.convertInputBlockSci,
  Overload.mk 152 OverloadSet.PythonConversionTypeConverter
    (CppType.any_view CppType.Address)
    (CppType.any_view CppType.AnyScript)
    Body.convertInputBlockSci,
  Overload.mk 153 OverloadSet.PythonConversionTypeConverter
    (CppType.any_view (CppType.optional CppType.Address))
    (CppType.any_view (CppType.optional CppType.AnyScript))
    Body.convertInputBlockSci,
  Overload.mk 155 OverloadSet.PythonConversionTypeConverter
    (CppType.random_range (CppType.optional CppType.int16_t))
    (CppType.random_range (CppType.optional CppType.int64_t))
    Body.convertRandomSizedBlockSci,
  Overload.mk 156 OverloadSet.PythonConversionTypeConverter
    (CppType.random_range (CppType.optional CppType.uint16_t))
    (CppType.random_range (CppType.optional CppType.int64_t))
    Body.convertRandomSizedBlockSci,
  Overload.mk 157 OverloadSet.PythonConversionTypeConverter
    (CppType.random_range (CppType.optional CppType.int32_t))
    (CppType.random_range (CppType.optional CppType.int64_t))
    Body.convertRandomSizedBlockSci,
  Overload.mk 158 OverloadSet.PythonConversionTypeConverter
    (CppType.random_range (CppType.optional CppType.uint32_t))
    (CppType.random_range (CppType.optional CppType.int64_t))
    Body.convertRandomSizedBlockSci,
  Overload.mk 159 OverloadSet.PythonConversionTypeConverter
    (CppType.random_range (CppType.optional CppType.uint64_t))
    (CppType.random_range (CppType.optional CppType.int64_t))
    Body.convertRandomSizedBlockSci,
  Overload.mk 160 OverloadSet.PythonConversionTypeConverter
    (CppType.random_range CppType.Address)
    (CppType.random_range CppType.AnyScript)
    Body.convertRandomSizedBlockSci,
  Overload.mk 161 OverloadSet.PythonConversionTypeConverter
    (CppType.random_range (CppType.optional CppType.Address))
    (CppType.random_range (CppType.optional CppType.AnyScript))
    Body.convertRandomSizedBlockSci
]

/-- Part of the table: the overloads that build a `pybind11::list`, lines 163 to 171. -/
def overloads_list : List Overload := [
  Overload.mk 163 OverloadSet.PythonConversionTypeConverter
    (CppType.any_view CppType.bytes)
    CppType.list
    Body.convertInputPy,
  Overload.mk 164 OverloadSet.PythonConversionTypeConverter
    (CppType.any_view CppType.list)
    CppType.list
    Body.convertInputPy,
  Overload.mk 165 OverloadSet.PythonConversionTypeConverter
    (CppType.any_view CppType.string)
    CppType.list
    Body.convertInputPy,
  Overload.mk 166 OverloadSet.PythonConversionTypeConverter
    (CppType.any_view CppType.AddressType_Enum)
    CppType.list
    Body.convertInputPy,
  Overload.mk 168 OverloadSet.PythonConversionTypeConverter
    (CppType.random_range CppType.bytes)
    CppType.list
    Body.convertRandomSizedPy,
  Overload.mk 169 OverloadSet.PythonConversionTypeConverter
    (CppType.random_range CppType.list)
    CppType.list
    Body.convertRandomSizedPy,
  Overload.mk 170 OverloadSet.PythonConversionTypeConverter
    (CppType.random_range CppType.string)
    CppType.list
    Body.convertRandomSizedPy,
  Overload.mk 171 OverloadSet.PythonConversionTypeConverter
    (CppType.random_range CppType.AddressType_Enum)
    CppType.list
    Body.convertRandomSizedPy
]

/-- Part of the table: the overloads that build a numpy array, lines 173 to 193. -/
def overloads_numpy : List Overload := [
  Overload.mk 173 OverloadSet.PythonConversionTypeConverter
    (CppType.any_view CppType.int64_t)
    (CppType.array_t CppType.int64_t)
    Body.convertInputNumpy,
  Overload.mk 174 OverloadSet.PythonConversionTypeConverter
    (CppType.any_view CppType.uint64_t)
    (CppType.array_t CppType.uint64_t)
    Body.convertInputNumpy,
  Overload.mk 175 OverloadSet.PythonConversionTypeConverter
    (CppType.any_view CppType.int32_t)
    (CppType.array_t CppType.int32_t)
    Body.convertInputNumpy,
  Overload.mk 176 OverloadSet.PythonConversionTypeConverter
    (CppType.any_view CppType.uint32_t)
    (CppType.array_t CppType.uint32_t)
    Body.convertInputNumpy,
  Overload.mk 177 OverloadSet.PythonConversionTypeConverter
    (CppType.any_view CppType.int16_t)
    (CppType.array_t CppType.int16_t)
    Body.convertInputNumpy,
  Overload.mk 178 OverloadSet.PythonConversionTypeConverter
    (CppType.any_view CppType.uint16_t)
    (CppType.array_t CppType.uint16_t)
    Body.convertInputNumpy,
  Overload.mk 179 OverloadSet.PythonConversionTypeConverter
    (CppType.any_view CppType.bool)
    (CppType.array_t CppType.NumpyBool)
    Body.convertInputNumpy,
  Overload.mk 180 OverloadSet.PythonConversionTypeConverter
    (CppType.any_view CppType.time_point)
    (CppType.array_t CppType.NumpyDatetime)
    Body.convertInputNumpy,
  Overload.mk 181 OverloadSet.PythonConversionTypeConverter
    (CppType.any_view CppType.uint160)
    (CppType.array_t (CppType.array_char 40))
    Body.convertInputNumpy,
  Overload.mk 182 OverloadSet.PythonConversionTypeConverter
    (CppType.any_view CppType.uint256)
    (CppType.array_t (CppType.array_char 64))
    Body.convertInputNumpy,
  Overload.mk 184 OverloadSet.PythonConversionTypeConverter
    (CppType.random_range CppType.int64_t)
    (CppType.array_t CppType.int64_t)
    Body.convertRandomSizedNumpy,
  Overload.mk 185 OverloadSet.PythonConversionTypeConverter
    (CppType.random_range CppType.uint64_t)
    (CppType.array_t CppType.uint64_t)
    Body.convertRandomSizedNumpy,
  Overload.mk 186 OverloadSet.PythonConversionTypeConverter
    (CppType.random_range CppType.int32_t)
    (CppType.array_t CppType.int32_t)
    Body.convertRandomSizedNumpy,
  Overload.mk 187 OverloadSet.PythonConversionTypeConverter
    (CppType.random_range CppType.uint32_t)
    (CppType.array_t CppType.uint32_t)
    Body.convertRandomSizedNumpy,
  Overload.mk 188 OverloadSet.PythonConversionTypeConverter
    (CppType.random_range CppType.int16_t)
    (CppType.array_t CppType.int16_t)
    Body.convertRandomSizedNumpy,
  Overload.mk 189 OverloadSet.PythonConversionTypeConverter
    (CppType.random_range CppType.uint16_t)
    (CppType.array_t CppType.uint16_t)
    Body.convertRandomSizedNumpy,
  Overload.mk 190 OverloadSet.PythonConversionTypeConverter
    (CppType.random_range CppType.bool)
    (CppType.array_t CppType.NumpyBool)
    Body.convertRandomSizedNumpy,
  Overload.mk 191 OverloadSet.PythonConversionTypeConverter
    (CppType.random_range CppType.time_point)
    (CppType.array_t CppType.NumpyDatetime)
    Body.convertInputNumpy,
  Overload.mk 192 OverloadSet.PythonConversionTypeConverter
    (CppType.random_range CppType.uint160)
    (CppType.array_t (CppType.array_char 40))
    Body.convertRandomSizedNumpy,
  Overload.mk 193 OverloadSet.PythonConversionTypeConverter
    (CppType.random_range CppType.uint256)
    (CppType.array_t (CppType.array_char 64))
    Body.convertRandomSizedNumpy
]

/-- Part of the table: the overloads on ranges of ranges, lines 197 to 226. -/
def overloads_join : List Overload := [
  Overload.mk 197 OverloadSet.ConvertedRangeTypeTagConverter
    (CppType.random_range (CppType.random_range CppType.Input))
    (CppType.any_view CppType.Input)
    Body.join,
  Overload.mk 198 OverloadSet.ConvertedRangeTypeTagConverter
    (CppType.random_range (CppType.any_view CppType.Input))
    (CppType.any_view CppType.Input)
    Body.join,
  Overload.mk 199 OverloadSet.ConvertedRangeTypeTagConverter
    (CppType.any_view (CppType.random_range CppType.Input))
    (CppType.any_view CppType.Input)
    Body.join,
  Overload.mk 200 OverloadSet.ConvertedRangeTypeTagConverter
    (CppType.any_view (CppType.any_view CppType.Input))
    (CppType.any_view CppType.Input)
    Body.join,
  Overload.mk 202 OverloadSet.ConvertedRangeTypeTagConverter
    (CppType.random_range (CppType.random_range CppType.Output))
    (CppType.any_view CppType.Output)
    Body.join,
  Overload.mk 203 OverloadSet.ConvertedRangeTypeTagConverter
    (CppType.random_range (CppType.any_view CppType.Output))
    (CppType.any_view CppType.Output)
    Body.join,
  Overload.mk 204 OverloadSet.ConvertedRangeTypeTagConverter
    (CppType.any_view (CppType.random_range CppType.Output))
    (CppType.any_view CppType.Output)
    Body.join,
  Overload.mk 205 OverloadSet.ConvertedRangeTypeTagConverter
    (CppType.any_view (CppType.any_view CppType.Output))
    (CppType.any_view CppType.Output)
    Body.join,
  Overload.mk 207 OverloadSet.ConvertedRangeTypeTagConverter
    (CppType.random_range (CppType.random_range CppType.Transaction))
    (CppType.any_view CppType.Transaction)
    Body.join,
  Overload.mk 208 OverloadSet.ConvertedRangeTypeTagConverter
    (CppType.random_range (CppType.any_view CppType.Transaction))
    (CppType.any_view CppType.Transaction)
    Body.join,
  Overload.mk 209 OverloadSet.ConvertedRangeTypeTagConverter
    (CppType.any_view (CppType.random_range CppType.Transaction))
    (CppType.any_view CppType.Transaction)
    Body.join,
  Overload.mk 210 OverloadSet.ConvertedRangeTypeTagConverter
    (CppType.any_view (CppType.any_view CppType.Transaction))
    (CppType.any_view CppType.Transaction)
    Body.join,
  Overload.mk 212 OverloadSet.ConvertedRangeTypeTagConverter
    (CppType.random_range (CppType.random_range CppType.Address))
    (CppType.any_view CppType.Address)
    Body.join,
  Overload.mk 213 OverloadSet.ConvertedRangeTypeTagConverter
    (CppType.random_range (CppType.any_view CppType.Address))
    (CppType.any_view CppType.Address)
    Body.join,
  Overload.mk 214 OverloadSet.ConvertedRangeTypeTagConverter
    (CppType.any_view (CppType.random_range CppType.Address))
    (CppType.any_view CppType.Address)
    Body.join,
  Overload.mk 215 OverloadSet.ConvertedRangeTypeTagConverter
    (CppType.any_view (CppType.any_view CppType.Address))
    (CppType.any_view CppType.Address)
    Body.join,
  Overload.mk 217 OverloadSet.ConvertedRangeTypeTagConverter
    (CppType.random_range (CppType.random_range CppType.TaggedAddress))
    (CppType.any_view CppType.TaggedAddress)
    Body.join,
  Overload.mk 218 OverloadSet.ConvertedRangeTypeTagConverter
    (CppType.random_range (CppType.any_view CppType.TaggedAddress))
    (CppType.any_view CppType.TaggedAddress)
    Body.join,
  Overload.mk 219 OverloadSet.ConvertedRangeTypeTagConverter
    (CppType.any_view (CppType.random_range CppType.TaggedAddress))
    (CppType.any_view CppType.TaggedAddress)
    Body.join,
  Overload.mk 220 OverloadSet.ConvertedRangeTypeTagConverter
    (CppType.any_view (CppType.any_view CppType.TaggedAddress))
    (CppType.any_view CppType.TaggedAddress)
    Body.join,
  Overload.mk 222 OverloadSet.ConvertedRangeTypeTagConverter
    (CppType.random_range CppType.OutputRange)
    (CppType.any_view CppType.Output)
    Body.join,
  Overload.mk 223 OverloadSet.ConvertedRangeTypeTagConverter
    (CppType.any_view CppType.OutputRange)
    (CppType.any_view CppType.Output)
    Body.join,
  Overload.mk 225 OverloadSet.ConvertedRangeTypeTagConverter
    (CppType.random_range CppType.InputRange)
    (CppType.any_view CppType.Input)
    Body.join,
  Overload.mk 226 OverloadSet.ConvertedRangeTypeTagConverter
    (CppType.any_view CppType.InputRange)
    (CppType.any_view CppType.Input)
    Body.join
]

/-- Part of the table: the overloads on ranges of optional ranges, lines 229 to 259. -/
def overloads_flatten : List Overload := [
  Overload.mk 229 OverloadSet.ConvertedRangeTypeTagConverter
    (CppType.random_range (CppType.optional (CppType.random_range CppType.Input)))
    (CppType.any_view CppType.Input)
    Body.flattenNestedOptional,
  Overload.mk 230 OverloadSet.ConvertedRangeTypeTagConverter
    (CppType.random_range (CppType.optional (CppType.any_view CppType.Input)))
    (CppType.any_view CppType.Input)
    Body.flattenNestedOptional,
  Overload.mk 231 OverloadSet.ConvertedRangeTypeTagConverter
    (CppType.any_view (CppType.optional (CppType.random_range CppType.Input)))
    (CppType.any_view CppType.Input)
    Body.flattenNestedOptional,
  Overload.mk 232 OverloadSet.ConvertedRangeTypeTagConverter
    (CppType.any_view (CppType.optional (CppType.any_view CppType.Input)))
    (CppType.any_view CppType.Input)
    Body.flattenNestedOptional,
  Overload.mk 234 OverloadSet.ConvertedRangeTypeTagConverter
    (CppType.random_range (CppType.optional (CppType.random_range CppType.Output)))
    (CppType.any_view CppType.Output)
    Body.flattenNestedOptional,
  Overload.mk 235 OverloadSet.ConvertedRangeTypeTagConverter
    (CppType.random_range (CppType.optional (CppType.any_view CppType.Output)))
    (CppType.any_view CppType.Output)
    Body.flattenNestedOptional,
  Overload.mk 236 OverloadSet.ConvertedRangeTypeTagConverter
    (CppType.any_view (CppType.optional (CppType.random_range CppType.Output)))
    (CppType.any_view CppType.Output)
    Body.flattenNestedOptional,
  Overload.mk 237 OverloadSet.ConvertedRangeTypeTagConverter
    (CppType.any_view (CppType.optional (CppType.any_view CppType.Output)))
    (CppType.any_view CppType.Output)
    Body.flattenNestedOptional,
  Overload.mk 239 OverloadSet.ConvertedRangeTypeTagConverter
    (CppType.random_range (CppType.optional (CppType.random_range CppType.Transaction)))
    (CppType.any_view CppType.Transaction)
    Body.flattenNestedOptional,
  Overload.mk 240 OverloadSet.ConvertedRangeTypeTagConverter
    (CppType.random_range (CppType.optional (CppType.any_view CppType.Transaction)))
    (CppType.any_view CppType.Transaction)
    Body.flattenNestedOptional,
  Overload.mk 241 OverloadSet.ConvertedRangeTypeTagConverter
    (CppType.any_view (CppType.optional (CppType.random_range CppType.Transaction)))
    (CppType.any_view CppType.Transaction)
    Body.flattenNestedOptional,
  Overload.mk 242 OverloadSet.ConvertedRangeTypeTagConverter
    (CppType.any_view (CppType.optional (CppType.any_view CppType.Transaction)))
    (CppType.any_view CppType.Transaction)
    Body.flattenNestedOptional,
  Overload.mk 244 OverloadSet.ConvertedRangeTypeTagConverter
    (CppType.random_range (CppType.optional (CppType.random_range CppType.Address)))
    (CppType.any_view CppType.Address)
    Body.flattenNestedOptional,
  Overload.mk 245 OverloadSet.ConvertedRangeTypeTagConverter
    (CppType.random_range (CppType.optional (CppType.any_view CppType.Address)))
    (CppType.any_view CppType.Address)
    Body.flattenNestedOptional,
  Overload.mk 246 OverloadSet.ConvertedRangeTypeTagConverter
    (CppType.any_view (CppType.optional (CppType.random_range CppType.Address)))
    (CppType.any_view CppType.Address)
    Body.flattenNestedOptional,
  Overload.mk 247 OverloadSet.ConvertedRangeTypeTagConverter
    (CppType.any_view (CppType.optional (CppType.any_view CppType.Address)))
    (CppType.any_view CppType.Address)
    Body.flattenNestedOptional,
  Overload.mk 249 OverloadSet.ConvertedRangeTypeTagConverter
    (CppType.random_range (CppType.optional (CppType.random_range CppType.TaggedAddress)))
    (CppType.any_view CppType.TaggedAddress)
    Body.flattenNestedOptional,
  Overload.mk 250 OverloadSet.ConvertedRangeTypeTagConverter
    (CppType.random_range (CppType.optional (CppType.any_view CppType.TaggedAddress)))
    (CppType.any_view CppType.TaggedAddress)
    Body.flattenNestedOptional,
  Overload.mk 251 OverloadSet.ConvertedRangeTypeTagConverter
    (CppType.any_view (CppType.optional (CppType.random_range CppType.TaggedAddress)))
    (CppType.any_view CppType.TaggedAddress)
    Body.flattenNestedOptional,
  Overload.mk 252 OverloadSet.ConvertedRangeTypeTagConverter
    (CppType.any_view (CppType.optional (CppType.any_view CppType.TaggedAddress)))
    (CppType.any_view CppType.TaggedAddress)
    Body.flattenNestedOptional,
  Overload.mk 255 OverloadSet.ConvertedRangeTypeTagConverter
    (CppType.random_range (CppType.optional CppType.OutputRange))
    (CppType.any_view CppType.Output)
    Body.flattenNestedOptional,
  Overload.mk 256 OverloadSet.ConvertedRangeTypeTagConverter
    (CppType.any_view (CppType.optional CppType.OutputRange))
    (CppType.any_view CppType.Output)
    Body.flattenNestedOptional,
  Overload.mk 258 OverloadSet.ConvertedRangeTypeTagConverter
    (CppType.random_range (CppType.optional CppType.InputRange))
    (CppType.any_view CppType.Input)
    Body.flattenNestedOptional,
  Overload.mk 259 OverloadSet.ConvertedRangeTypeTagConverter
    (CppType.any_view (CppType.optional CppType.InputRange))
    (CppType.any_view CppType.Input)
    Body.flattenNestedOptional
]

/-- The definitions of `operator()` in `range_conversion.cpp`, lines 147 to 259. -/
def overloads : List Overload :=
  overloads_narrowing ++ overloads_list ++ overloads_numpy ++ overloads_join ++ overloads_flatten

/-! ## The capability of a range type -/

/-- The capability a range type carries: `Sized` for a type that reports a size
before it is iterated, `Sequential` for one that does not. -/
class RangeCapability (Rng : Type) where
  capability : Capability

instance any_view.instRangeCapability (T : Type) : RangeCapability (any_view T) where
  capability := .Sequential

instance random_range.instRangeCapability (T : Type) : RangeCapability (random_range T) where
  capability := .Sized

/-- The capability of the type of a range. -/
def capabilityOf {Rng : Type} [RangeCapability Rng] (_ : Rng) : Capability :=
  RangeCapability.capability Rng

/-! ## Pickling of hash values (`block_py.cpp`) -/

namespace pybind11

/-- A Python object, as far as the pickle state of a hash needs one: a `str` with
its code points, a `list` with its items, an `int`. -/
inductive object where
  | str (codepoints : List Nat)
  | list (items : List object)
  | int (value : Int)

/-- The C++ exceptions the pickle functions can leave with: the
`std::runtime_error` the source throws, and the `cast_error` and `value_error`
pybind11 throws when a Python object does not convert. -/
inductive exception where
  | runtime_error (what : String)
  | cast_error
  | value_error (what : String)
deriving DecidableEq, Repr

/-- The conversion of a `char` to Python, `type_caster<char>::cast`: the `str` of
the one code point that is the byte (a Latin-1 decoding of the byte). -/
def cast_char (c : Fin 256) : object :=
  object.str [c.val]

/-- The conversion of a `std::vector<char>` to Python, `list_caster::cast`: the
`list` of its converted characters, in order. -/
def cast_vector_char (data : List (Fin 256)) : object :=
  object.list (data.map cast_char)

/-- The conversion of a Python object to `char`, `type_caster<char>`: a `str` of
exactly one code point below 256 gives that byte; any other `str` is a
`value_error` and any other object does not load. -/
def load_char (src : object) : Except exception (Fin 256) :=
  match src with
  | object.str [] => .error (.value_error "Cannot convert empty string to a character")
  | object.str [c] =>
    if h : c < 256 then .ok ⟨c, h⟩
    else .error (.value_error "Character code point not in range(0x100)")
  | object.str _ =>
    .error (.value_error "Expected a character, but multi-character string found")
  | _ => .error .cast_error

/-- The items of `src` loaded as characters one after the other, as
`list_caster::load` does: the first item that does not load ends the loading. -/
def load_chars : List object → Except exception (List (Fin 256))
  | [] => .ok []
  | item :: rest =>
    match load_char item with
    | .error e => .error e
    | .ok c =>
      match load_chars rest with
      | .error e => .error e
      | .ok cs => .ok (c :: cs)

/-- The call `src.cast<std::vector<char>>()`: a `list` is loaded item by item;
an object that is not a list of characters is a `cast_error`. -/
def load_vector_char (src : object) : Except exception (List (Fin 256)) :=
  match src with
  | object.list items => load_chars items
  | _ => .error .cast_error

end pybind11

/-- The first function given to `py::pickle` in `init_uint256` and `init_uint160`
(the two have the same body): the bytes of the hash are pushed one by one onto a
`std::vector<char>`, and the result is `py::make_tuple(data)`, given here as the
items of the tuple. -/
def pickle_getstate {WIDTH : Nat} (hash : base_blob WIDTH) : List pybind11.object :=
  let data : List (Fin 256) := hash.data.foldl (fun data c => data ++ [c]) []
  [pybind11.cast_vector_char data]

/-- The second function given to `py::pickle` in `init_uint256` and `init_uint160`
(the two have the same body), on the tuple with items `t`.  The constructor of the
hash from a pair of iterators is declared in `blocksci/core/bitcoin_uint256.hpp`,
which is not among the sources: it is the parameter `construct`. -/
def pickle_setstate {WIDTH : Nat} (construct : List (Fin 256) → base_blob WIDTH)
    (t : List pybind11.object) : Except pybind11.exception (base_blob WIDTH) :=
  if h : t.length ≠ 1 then
    .error (.runtime_error "Invalid state!")
  else
    match pybind11.load_vector_char (t.get ⟨0, by omega⟩) with
    | .error e => .error e
    | .ok data => .ok (construct data)

/-- A constructor of a hash from a range of bytes that copies a range of exactly
`WIDTH` bytes, and gives the zero hash for a range of any other length.  It is one
function the parameter `construct` of `pickle_setstate` can be. -/
def base_blob.ofRange {WIDTH : Nat} (data : List (Fin 256)) : base_blob WIDTH :=
  if h : data.length = WIDTH then ⟨data, h⟩ else ⟨List.replicate WIDTH 0, by simp⟩

/-! ## Theorems -/

theorem foldl_append_items {T : Type} (xs : List T) (l : pybind11.list T) :
    (xs.foldl (fun l a => l.append a) l).items = l.items ++ xs.map some := by
  induction xs generalizing l with
  | nil => simp
  | cons x xs ih =>
    rw [List.foldl_cons, ih]
    simp [pybind11.list.append]

/-- What `convertRandomSizedPy` builds: `size` empty slots and then the elements. -/
theorem convertRandomSizedPy_items {T : Type} (t : random_range T) :
    (convertRandomSizedPy t).items = List.replicate t.size none ++ t.elems.map some := by
  simp [convertRandomSizedPy, foldl_append_items, pybind11.list.ofSize, Range.pulls]

/-- C1 (evaluation at the failing input): for the sized range that yields the one
string "a" and reports size 1, `convertRandomSizedPy`, which is what
`PythonConversionTypeConverter` calls on a sized range of strings, returns a list
of two slots, an empty slot followed by "a", where the forward-only path
`convertInputPy` returns the one-slot list holding "a". -/
theorem convertRandomSizedPy_one_string :
    convertRandomSizedPy (⟨["a"], 1⟩ : random_range String) = ⟨[none, some "a"]⟩ ∧
    (convertRandomSizedPy (⟨["a"], 1⟩ : random_range String)).size = 2 ∧
    PythonConversionTypeConverter.call (⟨["a"], 1⟩ : random_range String)
      = ⟨[none, some "a"]⟩ ∧
    convertInputPy (⟨["a"]⟩ : any_view String) = ⟨[some "a"]⟩ := by
  decide

/-- Copying `xs` into a buffer whose first `pre.length` elements are written and
whose remaining `n` are not: it succeeds exactly when `xs` fits. -/
theorem ranges_copy_spec {R : Type} (xs : List R) (pre : List (Option R)) (n : Nat) :
    ranges_copy xs (pre ++ List.replicate n none) pre.length =
      if xs.length ≤ n then
        some (pre ++ xs.map some ++ List.replicate (n - xs.length) none)
      else none := by
  induction xs generalizing pre n with
  | nil => simp [ranges_copy]
  | cons x xs ih =>
    cases n with
    | zero => simp [ranges_copy]
    | succ m =>
      have hset : (pre ++ List.replicate (m + 1) none).set pre.length (some x) =
          (pre ++ [some x]) ++ List.replicate m (none : Option R) := by
        simp [List.replicate_succ]
      have hlen : (pre ++ [some x]).length = pre.length + 1 := by simp
      have hstep := ih (pre ++ [some x]) m
      rw [hlen] at hstep
      simp only [ranges_copy, List.length_append, List.length_replicate, List.length_cons,
        Nat.lt_add_right_iff_pos, Nat.succ_pos, if_true, hset, hstep]
      simp [Nat.succ_sub_succ]

/-- The bulk path on a range whose reported size is the number of elements it
yields: the array holds the converted elements, all written, in order. -/
theorem convertRandomSizedNumpy_of_size_eq {T R : Type} [NumpyConverter T R]
    (t : random_range T) (h : t.size = t.elems.length) :
    convertRandomSizedNumpy t =
      some ⟨t.elems.map (fun a => some (NumpyConverter.call a))⟩ := by
  have hcopy := ranges_copy_spec (t.elems.map (NumpyConverter.call : T → R)) [] t.size
  simp only [List.nil_append, List.length_nil, List.length_map] at hcopy
  simp only [convertRandomSizedNumpy, random_range.transform, pybind11.array_t.ofSize,
    Range.pulls, hcopy]
  simp [h, List.map_map, Function.comp_def]

/-- What the incremental array path builds: the converted elements in pull order. -/
theorem convertInputNumpy_data {Rng T R : Type} [Range Rng T] [NumpyConverter T R] (t : Rng) :
    (convertInputNumpy t).data = (Range.pulls t).map (fun a => some (NumpyConverter.call a)) := by
  simp [convertInputNumpy, pybind11.array_t.ofData, List.map_map, Function.comp_def]

/-- What the incremental list path builds: the elements in pull order. -/
theorem convertInputPy_items {Rng T : Type} [Range Rng T] (t : Rng) :
    (convertInputPy t).items = (Range.pulls t).map some := by
  simp [convertInputPy, foldl_append_items, pybind11.list.ofSize]

/-- C2: for a sized range whose reported size is `k` and that yields `k` elements,
`convertRandomSizedNumpy` returns an array of exactly `k` elements, and for every
`i < k` its `i`-th element is `NumpyConverter` applied to the `i`-th element of
the range. -/
theorem convertRandomSizedNumpy_size_fidelity {T R : Type} [NumpyConverter T R]
    (t : random_range T) (k : Nat) (hsize : t.size = k) (hpulls : t.elems.length = k) :
    ∃ ret : pybind11.array_t R, convertRandomSizedNumpy t = some ret ∧ ret.size = k ∧
      ∀ (i : Nat) (hi : i < k),
        ret.data[i]? = some (some (NumpyConverter.call (t.elems.get ⟨i, hpulls ▸ hi⟩))) := by
  refine ⟨⟨t.elems.map (fun a => some (NumpyConverter.call a))⟩,
    convertRandomSizedNumpy_of_size_eq t (hsize.trans hpulls.symm), ?_, ?_⟩
  · simp [pybind11.array_t.size, hpulls]
  · intro i hi
    have hi2 : i < t.elems.length := hpulls ▸ hi
    simp [List.getElem?_map, List.getElem?_eq_getElem hi2]

/-- C2 at an input: the sized range of 64-bit integers `[7, -3]` reporting size 2. -/
theorem convertRandomSizedNumpy_size_fidelity_witness :
    (⟨[int64_t.static_cast 7, int64_t.static_cast (-3)], 2⟩ : random_range int64_t).size = 2 ∧
    (⟨[int64_t.static_cast 7, int64_t.static_cast (-3)], 2⟩ : random_range int64_t).elems.length
      = 2 ∧
    ∃ ret : pybind11.array_t int64_t,
      convertRandomSizedNumpy
          (⟨[int64_t.static_cast 7, int64_t.static_cast (-3)], 2⟩ : random_range int64_t)
        = some ret ∧ ret.size = 2 ∧
      ∀ (i : Nat) (hi : i < 2),
        ret.data[i]? = some (some (NumpyConverter.call
          (([int64_t.static_cast 7, int64_t.static_cast (-3)] : List int64_t).get ⟨i, hi⟩))) :=
  ⟨rfl, rfl, convertRandomSizedNumpy_size_fidelity
    (⟨[int64_t.static_cast 7, int64_t.static_cast (-3)], 2⟩ : random_range int64_t) 2 rfl rfl⟩

/-- C3: for every forward-only range, `convertInputPy` returns the list of its
elements in pull order and `convertInputNumpy` returns the array of
`NumpyConverter` applied to its elements in pull order; both outputs have as many
entries as elements were pulled, and the `N`-th entry comes from the `N`-th
pulled element. -/
theorem convertInput_preserves_order {T R : Type} [NumpyConverter T R] (t : any_view T) :
    (convertInputPy t).items = t.elems.map some ∧
    (convertInputNumpy t : pybind11.array_t R).data
      = t.elems.map (fun a => some (NumpyConverter.call a)) ∧
    (convertInputPy t).size = t.elems.length ∧
    (convertInputNumpy t : pybind11.array_t R).size = t.elems.length ∧
    (∀ N : Nat, (convertInputPy t).items[N]? = (t.elems[N]?).map some) ∧
    (∀ N : Nat, (convertInputNumpy t : pybind11.array_t R).data[N]?
      = (t.elems[N]?).map (fun a => some (NumpyConverter.call a))) := by
  have hpy := convertInputPy_items t
  have hnp : (convertInputNumpy t : pybind11.array_t R).data
      = t.elems.map (fun a => some (NumpyConverter.call a)) := convertInputNumpy_data t
  simp only [Range.pulls] at hpy
  refine ⟨hpy, hnp, ?_, ?_, ?_, ?_⟩
  · simp [pybind11.list.size, hpy]
  · simp [pybind11.array_t.size, hnp]
  · intro N
    simp [hpy, List.getElem?_map]
  · intro N
    simp [hnp, List.getElem?_map]

/-- The value of `static_cast<int64_t>(x)` when `x` already fits 64 signed bits. -/
theorem int64_static_cast_of_fits (x : Int) (hlo : -(2 : Int) ^ 63 ≤ x) (hhi : x < (2 : Int) ^ 63) :
    (int64_t.static_cast x).val = x := by
  simp only [int64_t.static_cast, wrapSigned]
  split_ifs <;> omega

/-- What `convertInputBlockSci` yields: `BlockSciTypeConverter` applied to each
element, in pull order. -/
theorem convertInputBlockSci_elems {T R : Type} [BlockSciTypeConverter T R] (t : any_view T) :
    (convertInputBlockSci t).elems = t.elems.map BlockSciTypeConverter.call := by
  simp [convertInputBlockSci, any_view.transform]

/-- C4 (as stated, refuted): the forward-only range `[Some(5), None, Some(-2)]` of
optional 32-bit integers is exported as the three entries `[Some(5), None, Some(-2)]`:
the absent entry is kept, so the export does not have exactly `m = 2` entries and
is not `[5, -2]`. -/
theorem optional_int32_export_keeps_absent :
    (PythonConversionTypeConverter.call
        (⟨[some (int32_t.static_cast 5), none, some (int32_t.static_cast (-2))]⟩ :
          any_view (Option int32_t))).elems.map (Option.map int64_t.val)
      = [some 5, none, some (-2)] ∧
    (PythonConversionTypeConverter.call
        (⟨[some (int32_t.static_cast 5), none, some (int32_t.static_cast (-2))]⟩ :
          any_view (Option int32_t))).elems.length ≠ 2 ∧
    none ∈ (PythonConversionTypeConverter.call
        (⟨[some (int32_t.static_cast 5), none, some (int32_t.static_cast (-2))]⟩ :
          any_view (Option int32_t))).elems := by
  decide

/-- C4 (amended): for every forward-only range of optional 32-bit integers the
export is a range of optional 64-bit integers of the same length; a present entry
is exported as the present widened value, with the same mathematical value, and an
absent entry is exported as an absent entry at the same position.  So with `m`
present and `n` absent entries the export has `m + n` entries, `m` of them present. -/
theorem optional_int32_export_widens_in_place (t : any_view (Option int32_t)) :
    (PythonConversionTypeConverter.call t).elems.length = t.elems.length ∧
    (PythonConversionTypeConverter.call t).elems.map (Option.map int64_t.val)
      = t.elems.map (Option.map int32_t.val) ∧
    ((PythonConversionTypeConverter.call t).elems.filter Option.isSome).length
      = (t.elems.filter Option.isSome).length ∧
    ((PythonConversionTypeConverter.call t).elems.filter Option.isNone).length
      = (t.elems.filter Option.isNone).length := by
  have hcall : (PythonConversionTypeConverter.call t).elems
      = t.elems.map BlockSciTypeConverter.call := convertInputBlockSci_elems t
  have hval : ∀ o : Option int32_t,
      Option.map int64_t.val (BlockSciTypeConverter.call o) = Option.map int32_t.val o := by
    intro o
    cases o with
    | none => rfl
    | some v => exact congrArg some (int64_static_cast_of_fits v.val
        (le_trans (by norm_num) v.isGe) (lt_trans v.isLt (by norm_num)))
  have hsome : ∀ o : Option int32_t,
      (BlockSciTypeConverter.call o : Option int64_t).isSome = o.isSome := by
    intro o
    cases o <;> rfl
  have hnone : ∀ o : Option int32_t,
      (BlockSciTypeConverter.call o : Option int64_t).isNone = o.isNone := by
    intro o
    cases o <;> rfl
  rw [hcall]
  refine ⟨by simp, ?_, ?_, ?_⟩
  · rw [List.map_map]
    exact List.map_congr_left (fun o _ => hval o)
  · rw [List.filter_map, List.length_map]
    exact congrArg List.length (List.filter_congr (fun o _ => hsome o))
  · rw [List.filter_map, List.length_map]
    exact congrArg List.length (List.filter_congr (fun o _ => hnone o))

/-- The template overload of `NumpyConverter` in the incremental array path: the
array holds the elements themselves. -/
theorem convertInputNumpy_template {T : Type} (t : any_view T) :
    (@convertInputNumpy (any_view T) T T _ (NumpyConverter.instTemplate T) t).data
      = t.elems.map some := by
  simp [convertInputNumpy, pybind11.array_t.ofData, Range.pulls, NumpyConverter.call]

/-- The template overload of `NumpyConverter` in the bulk path, on a range that
reports its true length: the array holds the elements themselves. -/
theorem convertRandomSizedNumpy_template {T : Type} (elems : List T) :
    @convertRandomSizedNumpy T T (NumpyConverter.instTemplate T) ⟨elems, elems.length⟩
      = some ⟨elems.map some⟩ := by
  have h := @convertRandomSizedNumpy_of_size_eq T T (NumpyConverter.instTemplate T)
    ⟨elems, elems.length⟩ rfl
  simpa [NumpyConverter.call] using h

/-- C5 (as stated, refuted): the forward-only range `[7]` of 32-bit signed integers
is exported as an array of 4-byte signed integers, not of 8-byte signed integers;
and the forward-only range `[2^63]` of unsigned 64-bit integers is exported as an
array of unsigned 8-byte integers holding `2^63` itself. -/
theorem plain_int_export_not_canonical :
    (PythonConversionTypeConverter.call
        (⟨[int32_t.static_cast 7]⟩ : any_view int32_t)).dtype = ⟨'i', 4⟩ ∧
    (PythonConversionTypeConverter.call
        (⟨[int32_t.static_cast 7]⟩ : any_view int32_t)).dtype ≠ ⟨'i', 8⟩ ∧
    (PythonConversionTypeConverter.call
        (⟨[⟨2 ^ 63, by decide⟩]⟩ : any_view uint64_t)).dtype = ⟨'u', 8⟩ ∧
    (PythonConversionTypeConverter.call
        (⟨[⟨2 ^ 63, by decide⟩]⟩ : any_view uint64_t)).data.map (Option.map uint64_t.val)
      = [some (2 ^ 63)] := by
  decide

/-- C5 (amended): for every range of plain integers of kind `K` (signed or
unsigned, 16, 32 or 64 bits), forward-only or sized with its true length, the
exported array has element type `K` itself (2, 4 or 8 bytes, signed or unsigned as
the source) and holds the source elements unchanged, in order. -/
theorem plain_int_export_keeps_kind :
    ((∀ t : any_view int16_t, (PythonConversionTypeConverter.call t).dtype = ⟨'i', 2⟩ ∧
        (PythonConversionTypeConverter.call t).data = t.elems.map some) ∧
      (∀ elems : List int16_t, ∃ ret : pybind11.array_t int16_t,
        PythonConversionTypeConverter.call (⟨elems, elems.length⟩ : random_range int16_t)
          = some ret ∧ ret.dtype = ⟨'i', 2⟩ ∧ ret.data = elems.map some)) ∧
    ((∀ t : any_view uint16_t, (PythonConversionTypeConverter.call t).dtype = ⟨'u', 2⟩ ∧
        (PythonConversionTypeConverter.call t).data = t.elems.map some) ∧
      (∀ elems : List uint16_t, ∃ ret : pybind11.array_t uint16_t,
        PythonConversionTypeConverter.call (⟨elems, elems.length⟩ : random_range uint16_t)
          = some ret ∧ ret.dtype = ⟨'u', 2⟩ ∧ ret.data = elems.map some)) ∧
    ((∀ t : any_view int32_t, (PythonConversionTypeConverter.call t).dtype = ⟨'i', 4⟩ ∧
        (PythonConversionTypeConverter.call t).data = t.elems.map some) ∧
      (∀ elems : List int32_t, ∃ ret : pybind11.array_t int32_t,
        PythonConversionTypeConverter.call (⟨elems, elems.length⟩ : random_range int32_t)
          = some ret ∧ ret.dtype = ⟨'i', 4⟩ ∧ ret.data = elems.map some)) ∧
    ((∀ t : any_view uint32_t, (PythonConversionTypeConverter.call t).dtype = ⟨'u', 4⟩ ∧
        (PythonConversionTypeConverter.call t).data = t.elems.map some) ∧
      (∀ elems : List uint32_t, ∃ ret : pybind11.array_t uint32_t,
        PythonConversionTypeConverter.call (⟨elems, elems.length⟩ : random_range uint32_t)
          = some ret ∧ ret.dtype = ⟨'u', 4⟩ ∧ ret.data = elems.map some)) ∧
    ((∀ t : any_view int64_t, (PythonConversionTypeConverter.call t).dtype = ⟨'i', 8⟩ ∧
        (PythonConversionTypeConverter.call t).data = t.elems.map some) ∧
      (∀ elems : List int64_t, ∃ ret : pybind11.array_t int64_t,
        PythonConversionTypeConverter.call (⟨elems, elems.length⟩ : random_range int64_t)
          = some ret ∧ ret.dtype = ⟨'i', 8⟩ ∧ ret.data = elems.map some)) ∧
    ((∀ t : any_view uint64_t, (PythonConversionTypeConverter.call t).dtype = ⟨'u', 8⟩ ∧
        (PythonConversionTypeConverter.call t).data = t.elems.map some) ∧
      (∀ elems : List uint64_t, ∃ ret : pybind11.array_t uint64_t,
        PythonConversionTypeConverter.call (⟨elems, elems.length⟩ : random_range uint64_t)
          = some ret ∧ ret.dtype = ⟨'u', 8⟩ ∧ ret.data = elems.map some)) := by
  refine ⟨⟨fun t => ⟨rfl, convertInputNumpy_template t⟩,
      fun elems => ⟨_, convertRandomSizedNumpy_template elems, rfl, rfl⟩⟩,
    ⟨fun t => ⟨rfl, convertInputNumpy_template t⟩,
      fun elems => ⟨_, convertRandomSizedNumpy_template elems, rfl, rfl⟩⟩,
    ⟨fun t => ⟨rfl, convertInputNumpy_template t⟩,
      fun elems => ⟨_, convertRandomSizedNumpy_template elems, rfl, rfl⟩⟩,
    ⟨fun t => ⟨rfl, convertInputNumpy_template t⟩,
      fun elems => ⟨_, convertRandomSizedNumpy_template elems, rfl, rfl⟩⟩,
    ⟨fun t => ⟨rfl, convertInputNumpy_template t⟩,
      fun elems => ⟨_, convertRandomSizedNumpy_template elems, rfl, rfl⟩⟩,
    ⟨fun t => ⟨rfl, convertInputNumpy_template t⟩,
      fun elems => ⟨_, convertRandomSizedNumpy_template elems, rfl, rfl⟩⟩⟩

/-- C6: for every unsigned 64-bit value `v`, `BlockSciTypeConverter` returns the
signed 64-bit two's-complement reading of `v`: `v` itself when `v < 2^63` and
`v - 2^64` when `v ≥ 2^63`.  In particular `2^63` converts to `-2^63`. -/
theorem BlockSciTypeConverter_uint64_reinterprets (v : uint64_t) :
    (BlockSciTypeConverter.call v).val
      = (if v.val < 2 ^ 63 then (v.val : Int) else (v.val : Int) - 2 ^ 64) ∧
    (BlockSciTypeConverter.call (⟨2 ^ 63, by decide⟩ : uint64_t)).val = -(2 : Int) ^ 63 := by
  refine ⟨?_, by decide⟩
  have := v.isLt
  simp only [BlockSciTypeConverter.call, int64_t.static_cast, wrapSigned]
  split_ifs <;> omega

/-- C7: for every unsigned 16-bit, signed 16-bit, unsigned 32-bit and signed 32-bit
value `v`, `BlockSciTypeConverter` returns a signed 64-bit integer with the same
mathematical value; casting the result back to the source type returns `v`, and
the conversion is injective. -/
theorem BlockSciTypeConverter_widen_lossless :
    ((∀ v : uint16_t, (BlockSciTypeConverter.call v).val = (v.val : Int) ∧
        uint16_t.static_cast (BlockSciTypeConverter.call v).val = v) ∧
      Function.Injective (BlockSciTypeConverter.call : uint16_t → int64_t)) ∧
    ((∀ v : int16_t, (BlockSciTypeConverter.call v).val = v.val ∧
        int16_t.static_cast (BlockSciTypeConverter.call v).val = v) ∧
      Function.Injective (BlockSciTypeConverter.call : int16_t → int64_t)) ∧
    ((∀ v : uint32_t, (BlockSciTypeConverter.call v).val = (v.val : Int) ∧
        uint32_t.static_cast (BlockSciTypeConverter.call v).val = v) ∧
      Function.Injective (BlockSciTypeConverter.call : uint32_t → int64_t)) ∧
    ((∀ v : int32_t, (BlockSciTypeConverter.call v).val = v.val ∧
        int32_t.static_cast (BlockSciTypeConverter.call v).val = v) ∧
      Function.Injective (BlockSciTypeConverter.call : int32_t → int64_t)) := by
  have h16u : ∀ v : uint16_t, (BlockSciTypeConverter.call v).val = (v.val : Int) ∧
      uint16_t.static_cast (BlockSciTypeConverter.call v).val = v := by
    rintro ⟨x, hx⟩
    simp only [BlockSciTypeConverter.call, int64_t.static_cast, uint16_t.static_cast,
      wrapSigned, wrapUnsigned, uint16_t.mk.injEq]
    split_ifs <;> omega
  have h16s : ∀ v : int16_t, (BlockSciTypeConverter.call v).val = v.val ∧
      int16_t.static_cast (BlockSciTypeConverter.call v).val = v := by
    rintro ⟨x, hlo, hhi⟩
    simp only [BlockSciTypeConverter.call, int64_t.static_cast, int16_t.static_cast,
      wrapSigned, int16_t.mk.injEq]
    split_ifs <;> omega
  have h32u : ∀ v : uint32_t, (BlockSciTypeConverter.call v).val = (v.val : Int) ∧
      uint32_t.static_cast (BlockSciTypeConverter.call v).val = v := by
    rintro ⟨x, hx⟩
    simp only [BlockSciTypeConverter.call, int64_t.static_cast, uint32_t.static_cast,
      wrapSigned, wrapUnsigned, uint32_t.mk.injEq]
    split_ifs <;> omega
  have h32s : ∀ v : int32_t, (BlockSciTypeConverter.call v).val = v.val ∧
      int32_t.static_cast (BlockSciTypeConverter.call v).val = v := by
    rintro ⟨x, hlo, hhi⟩
    simp only [BlockSciTypeConverter.call, int64_t.static_cast, int32_t.static_cast,
      wrapSigned, int32_t.mk.injEq]
    split_ifs <;> omega
  refine ⟨⟨h16u, ?_⟩, ⟨h16s, ?_⟩, ⟨h32u, ?_⟩, ⟨h32s, ?_⟩⟩
  · intro a b hab
    rw [← (h16u a).2, ← (h16u b).2, hab]
  · intro a b hab
    rw [← (h16s a).2, ← (h16s b).2, hab]
  · intro a b hab
    rw [← (h32u a).2, ← (h32u b).2, hab]
  · intro a b hab
    rw [← (h32s a).2, ← (h32s b).2, hab]

/-- A blob of `WIDTH` bytes stands for a number below `16 ^ (2 * WIDTH)`. -/
theorem base_blob_value_lt {WIDTH : Nat} (b : base_blob WIDTH) : b.value < 16 ^ (2 * WIDTH) := by
  have h := Nat.ofDigits_lt_base_pow_length (b := 256) (l := b.data.map Fin.val) (by norm_num)
    (by
      intro x hx
      obtain ⟨y, _, rfl⟩ := List.mem_map.mp hx
      exact y.isLt)
  rw [List.length_map, b.size_eq] at h
  have hpow : (256 : Nat) ^ WIDTH = 16 ^ (2 * WIDTH) := by
    rw [pow_mul]
    norm_num
  rw [← hpow]
  exact h

/-- A number below `16 ^ k` has at most `k` hexadecimal digits. -/
theorem hexDigits_length_le (n k : Nat) (h : n < 16 ^ k) : (hexDigits n).length ≤ k := by
  unfold hexDigits
  rw [List.length_map, List.length_reverse]
  by_cases hn : n = 0
  · subst hn
    simp
  · have h1 := Nat.base_pow_length_digits_le 16 n (by norm_num) hn
    have h2 : 16 ^ (Nat.digits 16 n).length < 16 ^ (k + 1) := by
      calc 16 ^ (Nat.digits 16 n).length ≤ 16 * n := h1
        _ < 16 * 16 ^ k := by omega
        _ = 16 ^ (k + 1) := by rw [pow_succ, mul_comm]
    have h3 := (Nat.pow_lt_pow_iff_right (by norm_num : 1 < 16)).mp h2
    omega

theorem isLowerHexDigit_digitChar (d : Nat) (h : d < 16) :
    isLowerHexDigit (Nat.digitChar d) = true := by
  interval_cases d <;> decide

theorem hexDigits_lower (n : Nat) : ∀ c ∈ hexDigits n, isLowerHexDigit c = true := by
  intro c hc
  unfold hexDigits at hc
  obtain ⟨d, hd, rfl⟩ := List.mem_map.mp hc
  exact isLowerHexDigit_digitChar d
    (Nat.digits_lt_base (by norm_num) (List.mem_reverse.mp hd))

/-- The digest of a blob of `WIDTH` bytes has exactly `2 * WIDTH` characters. -/
theorem GetHex_length {WIDTH : Nat} (b : base_blob WIDTH) : b.GetHex.length = 2 * WIDTH := by
  unfold base_blob.GetHex
  rw [List.leftpad_length]
  exact Nat.max_eq_left (hexDigits_length_le _ _ (base_blob_value_lt b))

theorem GetHex_lower {WIDTH : Nat} (b : base_blob WIDTH) :
    ∀ c ∈ b.GetHex, isLowerHexDigit c = true := by
  intro c hc
  unfold base_blob.GetHex List.leftpad at hc
  rcases List.mem_append.mp hc with h | h
  · rw [(List.mem_replicate.mp h).2]
    decide
  · exact hexDigits_lower _ c h

/-- Copying `2 * WIDTH` characters out of the digest stays inside the digest and
copies all of it. -/
theorem copy_n_GetHex {WIDTH : Nat} (b : base_blob WIDTH) :
    copy_n b.GetHex (2 * WIDTH) = some b.GetHex := by
  unfold copy_n
  rw [if_pos (le_of_eq (GetHex_length b).symm), ← GetHex_length b, List.take_length]

/-- A list of hexadecimal digits, least significant first, is the digit list of the
number it stands for followed by zeros. -/
theorem digits_append_zeros (L : List Nat) (hL : ∀ d ∈ L, d < 16) :
    L = Nat.digits 16 (Nat.ofDigits 16 L)
      ++ List.replicate (L.length - (Nat.digits 16 (Nat.ofDigits 16 L)).length) 0 := by
  induction L with
  | nil => simp
  | cons d L ih =>
    have hd : d < 16 := hL d (List.mem_cons_self d L)
    have ih2 := ih (fun x hx => hL x (List.mem_cons_of_mem d hx))
    rw [Nat.ofDigits_cons]
    by_cases h : d ≠ 0 ∨ Nat.ofDigits 16 L ≠ 0
    · rw [Nat.digits_add 16 (by norm_num) d _ hd h]
      simp only [List.length_cons, Nat.succ_sub_succ, List.cons_append]
      exact congrArg (List.cons d) ih2
    · push_neg at h
      obtain ⟨h0, hn⟩ := h
      rw [hn] at ih2
      simp only [Nat.digits_zero, List.length_nil, List.nil_append, Nat.sub_zero] at ih2
      rw [h0, hn]
      simp only [Nat.mul_zero, Nat.add_zero, Nat.digits_zero, List.length_nil, List.nil_append,
        List.length_cons, Nat.sub_zero, List.replicate_succ]
      exact congrArg (List.cons 0) ih2

/-- Reading bytes in base 256 is reading their low and high halves in base 16. -/
theorem ofDigits_nibbles (data : List Nat) :
    Nat.ofDigits 16 (data.flatMap (fun x => [x % 16, x / 16])) = Nat.ofDigits 256 data := by
  induction data with
  | nil => simp
  | cons x rest ih =>
    simp only [List.flatMap_cons, List.cons_append, List.nil_append, Nat.ofDigits_cons, ih]
    omega

theorem reverse_flatMap_pair {α β : Type} (f g : α → β) (l : List α) :
    (l.flatMap (fun x => [f x, g x])).reverse = l.reverse.flatMap (fun x => [g x, f x]) := by
  induction l with
  | nil => simp
  | cons x rest ih =>
    simp [List.flatMap_cons, List.flatMap_append, ih]

/-- The digest written byte by byte: two hexadecimal digits for each byte of the
blob, the last stored byte first.  This is the shape `2 * WIDTH` of the digest made
explicit; no byte is dropped and every zero byte contributes its two `0` digits. -/
theorem GetHex_eq_bytes {WIDTH : Nat} (b : base_blob WIDTH) :
    b.GetHex = b.data.reverse.flatMap
      (fun x => [Nat.digitChar (x.val / 16), Nat.digitChar (x.val % 16)]) := by
  have hLlen : ((b.data.map Fin.val).flatMap (fun x => [x % 16, x / 16])).length = 2 * WIDTH := by
    have hgen : ∀ data : List (Fin 256),
        ((data.map Fin.val).flatMap (fun x => [x % 16, x / 16])).length = 2 * data.length := by
      intro data
      induction data with
      | nil => simp
      | cons x rest ih =>
        simp only [List.map_cons, List.flatMap_cons, List.length_append, List.length_cons,
          List.length_nil, ih]
        omega
    rw [hgen, b.size_eq]
  have hLlt : ∀ d ∈ (b.data.map Fin.val).flatMap (fun x => [x % 16, x / 16]), d < 16 := by
    intro d hd
    obtain ⟨x, hx, hdx⟩ := List.mem_flatMap.mp hd
    obtain ⟨y, _, rfl⟩ := List.mem_map.mp hx
    have := y.isLt
    simp only [List.mem_cons, List.mem_singleton, List.not_mem_nil, or_false] at hdx
    rcases hdx with rfl | rfl <;> omega
  have hpad := digits_append_zeros _ hLlt
  rw [ofDigits_nibbles, hLlen] at hpad
  have hrev := congrArg (fun l => (List.reverse l).map Nat.digitChar) hpad
  simp only [reverse_flatMap_pair, List.reverse_append, List.reverse_replicate, List.map_append,
    List.map_replicate, ← List.map_reverse] at hrev
  unfold base_blob.GetHex List.leftpad hexDigits base_blob.value
  rw [List.length_map, List.length_reverse]
  have hzero : Nat.digitChar 0 = '0' := rfl
  rw [hzero] at hrev
  rw [← hrev]
  generalize b.data.reverse = data
  induction data with
  | nil => simp
  | cons x rest ih => simp [List.flatMap_cons, ih]

/-- C8: for every 256-bit hash `h`, `NumpyConverter` returns an array of exactly 64
characters, each a lowercase hexadecimal digit; the copy of 64 characters stays
within the digest string (the digest has at least 64 characters), the array is
the whole digest, and it is the hexadecimal numeral of `h` preceded by as many
`0` digits as it takes to reach 64 characters, whatever the number of leading
zero bytes of `h`.  The all-zero hash encodes to 64 digits `0`. -/
theorem NumpyConverter_uint256_digest (h : uint256) :
    (∃ ret : List Char, NumpyConverter.call h = some ret ∧ ret.length = 64 ∧
      (∀ c ∈ ret, isLowerHexDigit c = true) ∧
      64 ≤ h.GetHex.length ∧ ret = h.GetHex ∧
      (hexDigits h.value).length ≤ 64 ∧
      ret = List.replicate (64 - (hexDigits h.value).length) '0' ++ hexDigits h.value) ∧
    NumpyConverter.call (⟨List.replicate 32 0, by decide⟩ : uint256)
      = some (List.replicate 64 '0') := by
  refine ⟨⟨h.GetHex, copy_n_GetHex h, GetHex_length h, GetHex_lower h,
    le_of_eq (GetHex_length h).symm, rfl, hexDigits_length_le _ _ (base_blob_value_lt h), rfl⟩, ?_⟩
  have hv : (⟨List.replicate 32 0, by decide⟩ : uint256).value = 0 := by decide
  show copy_n (List.leftpad (2 * 32) '0'
    (hexDigits (⟨List.replicate 32 0, by decide⟩ : uint256).value)) 64 = _
  rw [hv]
  simp [hexDigits, copy_n, List.leftpad]

/-- C9: for every 160-bit hash `h`, `NumpyConverter` returns an array of exactly 40
characters, each a lowercase hexadecimal digit; the copy of 40 characters stays
within the digest string (the digest has at least 40 characters), the array is
the whole digest, and it is the hexadecimal numeral of `h` preceded by as many
`0` digits as it takes to reach 40 characters, whatever the number of leading
zero bytes of `h`.  The all-zero hash encodes to 40 digits `0`. -/
theorem NumpyConverter_uint160_digest (h : uint160) :
    (∃ ret : List Char, NumpyConverter.call h = some ret ∧ ret.length = 40 ∧
      (∀ c ∈ ret, isLowerHexDigit c = true) ∧
      40 ≤ h.GetHex.length ∧ ret = h.GetHex ∧
      (hexDigits h.value).length ≤ 40 ∧
      ret = List.replicate (40 - (hexDigits h.value).length) '0' ++ hexDigits h.value) ∧
    NumpyConverter.call (⟨List.replicate 20 0, by decide⟩ : uint160)
      = some (List.replicate 40 '0') := by
  refine ⟨⟨h.GetHex, copy_n_GetHex h, GetHex_length h, GetHex_lower h,
    le_of_eq (GetHex_length h).symm, rfl, hexDigits_length_le _ _ (base_blob_value_lt h), rfl⟩, ?_⟩
  have hv : (⟨List.replicate 20 0, by decide⟩ : uint160).value = 0 := by decide
  show copy_n (List.leftpad (2 * 20) '0'
    (hexDigits (⟨List.replicate 20 0, by decide⟩ : uint160).value)) 40 = _
  rw [hv]
  simp [hexDigits, copy_n, List.leftpad]

theorem foldl_push_eq_append {T : Type} (xs out : List T) :
    xs.foldl (fun out a => out ++ [a]) out = out ++ xs := by
  induction xs generalizing out with
  | nil => simp
  | cons x xs ih =>
    rw [List.foldl_cons, ih]
    simp

theorem foldl_inner_eq_append {Inner T : Type} [Range Inner T] (outer : List Inner)
    (acc : List T) :
    outer.foldl (fun out inner => (Range.pulls inner).foldl (fun out a => out ++ [a]) out) acc
      = acc ++ (outer.map Range.pulls).flatten := by
  induction outer generalizing acc with
  | nil => simp
  | cons inner rest ih =>
    rw [List.foldl_cons, ih, foldl_push_eq_append]
    simp

/-- What `ranges::view::join` yields: the inner ranges one after the other. -/
theorem view_join_eq_flatten {Outer Inner T : Type} [Range Outer Inner] [Range Inner T]
    (t : Outer) :
    view_join t = ((Range.pulls t).map (Range.pulls : Inner → List T)).flatten := by
  unfold view_join
  rw [foldl_inner_eq_append]
  simp

/-- C10: for every range of ranges, the outer and the inner each forward-only or
sized, the join yields the concatenation of the inner ranges in outer order, each
inner range in its own order, so its length is the sum of the inner lengths;
joining `[[a,b],[],[c]]` yields `[a,b,c]` and joining the empty outer range yields
the empty range. -/
theorem join_concatenates (T : Type) :
    (∀ t : random_range (random_range T),
      (ConvertedRangeTypeTagConverter.call t).elems
        = (t.elems.map random_range.elems).flatten ∧
      (ConvertedRangeTypeTagConverter.call t).elems.length
        = (t.elems.map (fun inner => inner.elems.length)).sum) ∧
    (∀ t : random_range (any_view T),
      (ConvertedRangeTypeTagConverter.call t).elems
        = (t.elems.map any_view.elems).flatten ∧
      (ConvertedRangeTypeTagConverter.call t).elems.length
        = (t.elems.map (fun inner => inner.elems.length)).sum) ∧
    (∀ t : any_view (random_range T),
      (ConvertedRangeTypeTagConverter.call t).elems
        = (t.elems.map random_range.elems).flatten ∧
      (ConvertedRangeTypeTagConverter.call t).elems.length
        = (t.elems.map (fun inner => inner.elems.length)).sum) ∧
    (∀ t : any_view (any_view T),
      (ConvertedRangeTypeTagConverter.call t).elems
        = (t.elems.map any_view.elems).flatten ∧
      (ConvertedRangeTypeTagConverter.call t).elems.length
        = (t.elems.map (fun inner => inner.elems.length)).sum) ∧
    (∀ a b c : T,
      (ConvertedRangeTypeTagConverter.call
        (⟨[⟨[a, b]⟩, ⟨[]⟩, ⟨[c]⟩]⟩ : any_view (any_view T))).elems = [a, b, c] ∧
      (ConvertedRangeTypeTagConverter.call
        (⟨[⟨[a, b], 2⟩, ⟨[], 0⟩, ⟨[c], 1⟩], 3⟩ : random_range (random_range T))).elems
          = [a, b, c]) ∧
    (ConvertedRangeTypeTagConverter.call (⟨[]⟩ : any_view (any_view T))).elems = [] ∧
    (ConvertedRangeTypeTagConverter.call (⟨[], 0⟩ : random_range (random_range T))).elems
      = [] := by
  refine ⟨fun t => ?_, fun t => ?_, fun t => ?_, fun t => ?_, fun a b c => ⟨rfl, rfl⟩, rfl, rfl⟩
  · have h : (ConvertedRangeTypeTagConverter.call t).elems
        = (t.elems.map random_range.elems).flatten := view_join_eq_flatten t
    refine ⟨h, ?_⟩
    rw [h, List.length_flatten, List.map_map]
    rfl
  · have h : (ConvertedRangeTypeTagConverter.call t).elems
        = (t.elems.map any_view.elems).flatten := view_join_eq_flatten t
    refine ⟨h, ?_⟩
    rw [h, List.length_flatten, List.map_map]
    rfl
  · have h : (ConvertedRangeTypeTagConverter.call t).elems
        = (t.elems.map random_range.elems).flatten := view_join_eq_flatten t
    refine ⟨h, ?_⟩
    rw [h, List.length_flatten, List.map_map]
    rfl
  · have h : (ConvertedRangeTypeTagConverter.call t).elems
        = (t.elems.map any_view.elems).flatten := view_join_eq_flatten t
    refine ⟨h, ?_⟩
    rw [h, List.length_flatten, List.map_map]
    rfl

/-- Filtering with `isOptional` and then applying `derefOptional` yields the held
values of the present entries, in order. -/
theorem filter_deref_eq_filterMap {T : Type} (l : List (Option T)) :
    (view_filter l isOptional).map (fun o => derefOptional o.1 o.2) = l.filterMap id := by
  induction l with
  | nil => rfl
  | cons o rest ih =>
    cases o with
    | none => simpa [view_filter, isOptional] using ih
    | some x =>
      simp only [view_filter, isOptional, derefOptional] at ih ⊢
      simp [ih]

/-- What `flattenNestedOptional` yields: the inner ranges of the present entries,
one after the other. -/
theorem flattenNestedOptional_elems {Rng Inner T : Type} [Range Rng (Option Inner)]
    [Range Inner T] (t : Rng) :
    (flattenNestedOptional t).elems
      = (((Range.pulls t).filterMap id).map (Range.pulls : Inner → List T)).flatten := by
  simp only [flattenNestedOptional, any_view.transform, view_join_eq_flatten, Range.pulls,
    filter_deref_eq_filterMap]

/-- The generic statement behind C11, for any outer and inner kind of range. -/
theorem flattenNestedOptional_spec {Rng Inner T : Type} [Range Rng (Option Inner)]
    [Range Inner T] (t : Rng) :
    (flattenNestedOptional t).elems
        = (Range.pulls t).flatMap (fun o => (o.map Range.pulls).getD []) ∧
    (flattenNestedOptional t).elems.length
        = ((Range.pulls t).map (fun o => (o.map (fun inner => (Range.pulls inner).length)).getD 0)).sum ∧
    (flattenNestedOptional t).elems
        = view_join (⟨(Range.pulls t).filterMap id⟩ : any_view Inner) ∧
    ((Range.pulls t).filterMap id).map some = (Range.pulls t).filter Option.isSome := by
  have h := flattenNestedOptional_elems t
  have hflat : ∀ l : List (Option Inner),
      ((l.filterMap id).map (Range.pulls : Inner → List T)).flatten
        = l.flatMap (fun o => (o.map Range.pulls).getD []) := by
    intro l
    induction l with
    | nil => rfl
    | cons o rest ih =>
      cases o with
      | none => simpa using ih
      | some x => simp [ih]
  have hlen : ∀ l : List (Option Inner),
      (l.flatMap (fun o => (o.map (Range.pulls : Inner → List T)).getD [])).length
        = (l.map (fun o => (o.map (fun inner => (Range.pulls inner : List T).length)).getD 0)).sum := by
    intro l
    induction l with
    | nil => rfl
    | cons o rest ih =>
      cases o with
      | none => simpa using ih
      | some x => simp [ih]
  have hsome : ∀ l : List (Option Inner),
      (l.filterMap id).map some = l.filter Option.isSome := by
    intro l
    induction l with
    | nil => rfl
    | cons o rest ih =>
      cases o with
      | none => simpa using ih
      | some x => simp [ih]
  refine ⟨h.trans (hflat _), ?_, ?_, hsome _⟩
  · rw [h, hflat, hlen]
  · rw [h, view_join_eq_flatten]
    rfl

/-- C11: for every range of optional nested ranges (outer and inner each sized or
forward-only), `flattenNestedOptional` yields exactly the concatenation, in the
original order, of the inner ranges of the present entries: an absent entry
contributes nothing, the output length is the sum of the lengths of the present
inner ranges, and the result is the join of the unwrapped present entries.  For
example `[Some [a, b], None, Some [c]]` flattens to `[a, b, c]`. -/
theorem flattenNestedOptional_concatenates_present (T : Type) :
    (∀ t : random_range (Option (random_range T)),
      (ConvertedRangeTypeTagConverter.call t).elems
        = t.elems.flatMap (fun o => (o.map (fun inner => inner.elems)).getD []) ∧
      (ConvertedRangeTypeTagConverter.call t).elems.length
        = (t.elems.map (fun o => (o.map (fun inner => inner.elems.length)).getD 0)).sum ∧
      (ConvertedRangeTypeTagConverter.call t).elems
        = (ConvertedRangeTypeTagConverter.call
            (⟨t.elems.filterMap id⟩ : any_view (random_range T))).elems ∧
      (t.elems.filterMap id).map some = t.elems.filter Option.isSome) ∧
    (∀ t : random_range (Option (any_view T)),
      (ConvertedRangeTypeTagConverter.call t).elems
        = t.elems.flatMap (fun o => (o.map (fun inner => inner.elems)).getD []) ∧
      (ConvertedRangeTypeTagConverter.call t).elems.length
        = (t.elems.map (fun o => (o.map (fun inner => inner.elems.length)).getD 0)).sum ∧
      (ConvertedRangeTypeTagConverter.call t).elems
        = (ConvertedRangeTypeTagConverter.call
            (⟨t.elems.filterMap id⟩ : any_view (any_view T))).elems ∧
      (t.elems.filterMap id).map some = t.elems.filter Option.isSome) ∧
    (∀ t : any_view (Option (random_range T)),
      (ConvertedRangeTypeTagConverter.call t).elems
        = t.elems.flatMap (fun o => (o.map (fun inner => inner.elems)).getD []) ∧
      (ConvertedRangeTypeTagConverter.call t).elems.length
        = (t.elems.map (fun o => (o.map (fun inner => inner.elems.length)).getD 0)).sum ∧
      (ConvertedRangeTypeTagConverter.call t).elems
        = (ConvertedRangeTypeTagConverter.call
            (⟨t.elems.filterMap id⟩ : any_view (random_range T))).elems ∧
      (t.elems.filterMap id).map some = t.elems.filter Option.isSome) ∧
    (∀ t : any_view (Option (any_view T)),
      (ConvertedRangeTypeTagConverter.call t).elems
        = t.elems.flatMap (fun o => (o.map (fun inner => inner.elems)).getD []) ∧
      (ConvertedRangeTypeTagConverter.call t).elems.length
        = (t.elems.map (fun o => (o.map (fun inner => inner.elems.length)).getD 0)).sum ∧
      (ConvertedRangeTypeTagConverter.call t).elems
        = (ConvertedRangeTypeTagConverter.call
            (⟨t.elems.filterMap id⟩ : any_view (any_view T))).elems ∧
      (t.elems.filterMap id).map some = t.elems.filter Option.isSome) ∧
    (∀ a b c : T,
      (ConvertedRangeTypeTagConverter.call
        (⟨[some ⟨[a, b]⟩, none, some ⟨[c]⟩]⟩ : any_view (Option (any_view T)))).elems
          = [a, b, c] ∧
      (ConvertedRangeTypeTagConverter.call
        (⟨[some ⟨[a, b], 2⟩, none, some ⟨[c], 1⟩], 3⟩ :
          random_range (Option (random_range T)))).elems = [a, b, c]) := by
  refine ⟨fun t => flattenNestedOptional_spec t, fun t => flattenNestedOptional_spec t,
    fun t => flattenNestedOptional_spec t, fun t => flattenNestedOptional_spec t,
    fun a b c => ⟨rfl, rfl⟩⟩

/-- C12: for every kind `T` that `BlockSciTypeConverter` narrows to `R` (the 16-,
32- and 64-bit integers widened to `int64_t`, an address resolved to its script),
the overload on optionals returns `Some` of the narrowed value for `Some(x)` and
`None` for `None`; so mapping it over a range of optionals, forward-only or sized,
keeps the length (and the reported size) and keeps every absent entry absent and
every present entry present at its position. -/
theorem BlockSciTypeConverter_optional_propagates (T R : Type) [BlockSciTypeConverter T R] :
    (∀ x : T, BlockSciTypeConverter.call (some x) = some (BlockSciTypeConverter.call x : R)) ∧
    BlockSciTypeConverter.call (none : Option T) = (none : Option R) ∧
    (∀ t : any_view (Option T),
      (convertInputBlockSci t).elems
        = t.elems.map (Option.map (BlockSciTypeConverter.call : T → R)) ∧
      (convertInputBlockSci t).elems.length = t.elems.length ∧
      (convertInputBlockSci t).elems.map Option.isNone = t.elems.map Option.isNone) ∧
    (∀ t : random_range (Option T),
      (convertRandomSizedBlockSci t).elems
        = t.elems.map (Option.map (BlockSciTypeConverter.call : T → R)) ∧
      (convertRandomSizedBlockSci t).elems.length = t.elems.length ∧
      (convertRandomSizedBlockSci t).size = t.size ∧
      (convertRandomSizedBlockSci t).elems.map Option.isNone = t.elems.map Option.isNone) ∧
    BlockSciTypeConverter.call (some (⟨7, ⟨1, 42⟩⟩ : Address)) = some (⟨1, 42⟩ : AnyScript) ∧
    (BlockSciTypeConverter.call (some (⟨2 ^ 63, by decide⟩ : uint64_t))).map int64_t.val
      = some (-(2 : Int) ^ 63) ∧
    (PythonConversionTypeConverter.call
        (⟨[some ⟨7, ⟨1, 42⟩⟩, none]⟩ : any_view (Option Address))).elems
      = [some ⟨1, 42⟩, none] := by
  have hcall : ∀ o : Option T,
      (BlockSciTypeConverter.call o : Option R) = o.map BlockSciTypeConverter.call := by
    intro o
    cases o <;> rfl
  have hmap : ∀ l : List (Option T),
      l.map (BlockSciTypeConverter.call : Option T → Option R)
        = l.map (Option.map BlockSciTypeConverter.call) :=
    fun l => List.map_congr_left (fun o _ => hcall o)
  have hnone : ∀ l : List (Option T),
      (l.map (Option.map (BlockSciTypeConverter.call : T → R))).map Option.isNone
        = l.map Option.isNone := by
    intro l
    rw [List.map_map]
    apply List.map_congr_left
    intro o _
    cases o <;> rfl
  refine ⟨fun x => rfl, rfl, fun t => ?_, fun t => ?_, rfl, by decide, rfl⟩
  · have h : (convertInputBlockSci t).elems
        = t.elems.map (Option.map (BlockSciTypeConverter.call : T → R)) := by
      rw [convertInputBlockSci_elems, hmap]
    refine ⟨h, ?_, ?_⟩
    · rw [h, List.length_map]
    · rw [h, hnone]
  · have h : (convertRandomSizedBlockSci t).elems
        = t.elems.map (Option.map (BlockSciTypeConverter.call : T → R)) := by
      simp only [convertRandomSizedBlockSci, random_range.transform]
      exact hmap _
    refine ⟨h, ?_, rfl, ?_⟩
    · rw [h, List.length_map]
    · rw [h, hnone]

/-- Division truncating toward zero, by a positive divisor, keeps a 64-bit signed
value in range. -/
theorem tdiv_fits (a : Int) (q : Nat) (hlo : -(2 : Int) ^ 63 ≤ a) (hhi : a < (2 : Int) ^ 63) :
    -(2 : Int) ^ 63 ≤ Int.tdiv a q ∧ Int.tdiv a q < (2 : Int) ^ 63 := by
  have hq : (0 : Int) ≤ (q : Int) := Int.ofNat_nonneg q
  by_cases ha : 0 ≤ a
  · rw [Int.tdiv_eq_ediv ha hq]
    have h1 := Int.ediv_nonneg ha hq
    have h2 := Int.ediv_le_self (q : Int) ha
    omega
  · have hna : 0 ≤ -a := by omega
    have h : Int.tdiv a q = -((-a) / (q : Int)) := by
      rw [← Int.tdiv_eq_ediv hna hq, Int.neg_tdiv, neg_neg]
    have h1 := Int.ediv_nonneg hna hq
    have h2 := Int.ediv_le_self (q : Int) hna
    rw [h]
    omega

/-- C13: for a timestamp of `tc` ticks on a clock whose tick lasts a whole number
`r` of nanoseconds, `NumpyConverter` returns the count `tc * r` of nanoseconds
whenever that fits 64 signed bits; for a timestamp of `tf` ticks on a clock with a
whole number `q` of ticks per nanosecond it returns `tf / q` truncated toward
zero.  For example -7 ticks at 2 ticks per nanosecond give -3 nanoseconds. -/
theorem NumpyConverter_time_point_nanoseconds (r q : Nat) (tc : time_point r 1)
    (tf : time_point 1 q)
    (hfit : -(2 : Int) ^ 63 ≤ tc.time_since_epoch.val * r ∧
      tc.time_since_epoch.val * r < (2 : Int) ^ 63)
    (hq : 0 < q) :
    (∃ ns : NumpyDatetime, NumpyConverter.call tc = some ns ∧
      ns.time.val = tc.time_since_epoch.val * r) ∧
    (∃ ns : NumpyDatetime, NumpyConverter.call tf = some ns ∧
      ns.time.val = Int.tdiv tf.time_since_epoch.val q) ∧
    (NumpyConverter.call (⟨int64_t.static_cast (-7)⟩ : time_point 1 2)).map
      (fun ns => ns.time.val) = some (-3) := by
  refine ⟨?_, ?_, by decide⟩
  · by_cases hr : r = 1
    · subst hr
      refine ⟨⟨int64_t.static_cast tc.time_since_epoch.val⟩, ?_, ?_⟩
      · simp [NumpyConverter.call, duration_cast_nanoseconds]
      · rw [int64_static_cast_of_fits _ tc.time_since_epoch.isGe tc.time_since_epoch.isLt]
        simp
    · refine ⟨⟨int64_t.static_cast (tc.time_since_epoch.val * r)⟩, ?_, ?_⟩
      · show (duration_cast_nanoseconds r 1 tc.time_since_epoch).map NumpyDatetime.mk = _
        unfold duration_cast_nanoseconds checked_mul_int64
        rw [if_neg (by decide), if_neg (by simp [hr]), if_pos rfl, if_pos hfit]
        rfl
      · exact int64_static_cast_of_fits _ hfit.1 hfit.2
  · have hb := tdiv_fits tf.time_since_epoch.val q tf.time_since_epoch.isGe
      tf.time_since_epoch.isLt
    by_cases hq1 : q = 1
    · subst hq1
      refine ⟨⟨int64_t.static_cast tf.time_since_epoch.val⟩, ?_, ?_⟩
      · simp [NumpyConverter.call, duration_cast_nanoseconds]
      · rw [int64_static_cast_of_fits _ tf.time_since_epoch.isGe tf.time_since_epoch.isLt]
        simp
    · refine ⟨⟨int64_t.static_cast (Int.tdiv tf.time_since_epoch.val q)⟩, ?_, ?_⟩
      · have hq0 : q ≠ 0 := by omega
        simp [NumpyConverter.call, duration_cast_nanoseconds, hq0, hq1]
      · exact int64_static_cast_of_fits _ hb.1 hb.2

/-- C13 at an input: 5 ticks of 1000 nanoseconds, and -7 ticks at 2 ticks per
nanosecond. -/
theorem NumpyConverter_time_point_nanoseconds_witness :
    (-(2 : Int) ^ 63 ≤ (⟨int64_t.static_cast 5⟩ : time_point 1000 1).time_since_epoch.val
        * (1000 : Nat) ∧
      (⟨int64_t.static_cast 5⟩ : time_point 1000 1).time_since_epoch.val * (1000 : Nat)
        < (2 : Int) ^ 63) ∧
    0 < 2 ∧
    ((∃ ns : NumpyDatetime,
        NumpyConverter.call (⟨int64_t.static_cast 5⟩ : time_point 1000 1) = some ns ∧
        ns.time.val
          = (⟨int64_t.static_cast 5⟩ : time_point 1000 1).time_since_epoch.val * (1000 : Nat)) ∧
      (∃ ns : NumpyDatetime,
        NumpyConverter.call (⟨int64_t.static_cast (-7)⟩ : time_point 1 2) = some ns ∧
        ns.time.val
          = Int.tdiv (⟨int64_t.static_cast (-7)⟩ : time_point 1 2).time_since_epoch.val
              (2 : Nat)) ∧
      (NumpyConverter.call (⟨int64_t.static_cast (-7)⟩ : time_point 1 2)).map
        (fun ns => ns.time.val) = some (-3)) :=
  ⟨by decide, by decide,
    NumpyConverter_time_point_nanoseconds 1000 2 ⟨int64_t.static_cast 5⟩
      ⟨int64_t.static_cast (-7)⟩ (by decide) (by decide)⟩

/-- C14: for every sized range of booleans that reports size `k` and yields `k`
booleans, the export is a bulk buffer of exactly `k` one-byte flags whose `i`-th
flag is 1 when the `i`-th boolean is true and 0 when it is false; `[true, false]`
with size 2 exports as `[1, 0]`. -/
theorem sized_bool_export_flags (t : random_range Bool) (k : Nat) (hsize : t.size = k)
    (hpulls : t.elems.length = k) :
    (∃ ret : pybind11.array_t NumpyBool,
      PythonConversionTypeConverter.call t = some ret ∧ ret.size = k ∧
      ret.dtype.itemsize = 1 ∧
      ret.data.map (Option.map NumpyBool.flag)
        = t.elems.map (fun b => some (if b then 1 else 0)) ∧
      ∀ (i : Nat) (hi : i < k),
        (ret.data[i]?).map (Option.map NumpyBool.flag)
          = some (some (if t.elems.get ⟨i, hpulls ▸ hi⟩ then 1 else 0))) ∧
    (PythonConversionTypeConverter.call (⟨[true, false], 2⟩ : random_range Bool)).map
      (fun ret => ret.data.map (Option.map NumpyBool.flag)) = some [some 1, some 0] := by
  refine ⟨⟨⟨t.elems.map (fun a => some (NumpyConverter.call a))⟩,
    convertRandomSizedNumpy_of_size_eq t (hsize.trans hpulls.symm), ?_, rfl, ?_, ?_⟩, by decide⟩
  · simp [pybind11.array_t.size, hpulls]
  · simp [List.map_map, Function.comp_def, NumpyConverter.call, NumpyBool.flag]
  · intro i hi
    have hi2 : i < t.elems.length := hpulls ▸ hi
    simp [List.getElem?_map, List.getElem?_eq_getElem hi2, NumpyConverter.call, NumpyBool.flag]

/-- C14 at an input: the sized range `[true, false]` reporting size 2. -/
theorem sized_bool_export_flags_witness :
    (⟨[true, false], 2⟩ : random_range Bool).size = 2 ∧
    (⟨[true, false], 2⟩ : random_range Bool).elems.length = 2 ∧
    ((∃ ret : pybind11.array_t NumpyBool,
      PythonConversionTypeConverter.call (⟨[true, false], 2⟩ : random_range Bool) = some ret ∧
      ret.size = 2 ∧ ret.dtype.itemsize = 1 ∧
      ret.data.map (Option.map NumpyBool.flag)
        = ([true, false] : List Bool).map (fun b => some (if b then 1 else 0)) ∧
      ∀ (i : Nat) (hi : i < 2),
        (ret.data[i]?).map (Option.map NumpyBool.flag)
          = some (some (if ([true, false] : List Bool).get ⟨i, hi⟩ then 1 else 0))) ∧
    (PythonConversionTypeConverter.call (⟨[true, false], 2⟩ : random_range Bool)).map
      (fun ret => ret.data.map (Option.map NumpyBool.flag)) = some [some 1, some 0]) :=
  ⟨rfl, rfl, sized_bool_export_flags ⟨[true, false], 2⟩ 2 rfl rfl⟩

set_option maxRecDepth 100000 in
/-- C15 (evaluation at the failing input): the overload for a sized range of
timestamps calls `convertInputNumpy`, the incremental path, where the overloads
for the other sized fixed-width kinds call `convertRandomSizedNumpy`.  In the table
it is the one sized overload returning an array whose body is not the bulk path,
at line 191.  On the sized range of one timestamp reporting size 1 it returns what
the incremental path returns; and it does not size the buffer from the reported
size: for one timestamp and a reported size of 2 the bulk path allocates 2
elements and the overload returns 1. -/
theorem sized_time_point_takes_incremental_path :
    PythonConversionTypeConverter.call
        (⟨[⟨int64_t.static_cast 5⟩], 1⟩ : random_range (time_point 1 1))
      = convertInputNumpy (⟨[⟨int64_t.static_cast 5⟩], 1⟩ : random_range (time_point 1 1)) ∧
    (∀ (num den : Nat) (t : random_range (time_point num den)),
      PythonConversionTypeConverter.call t = convertInputNumpy t) ∧
    (PythonConversionTypeConverter.call
        (⟨[⟨int64_t.static_cast 5⟩], 2⟩ : random_range (time_point 1 1))).size = 1 ∧
    (convertRandomSizedNumpy
        (⟨[⟨int64_t.static_cast 5⟩], 2⟩ : random_range (time_point 1 1))).map
      pybind11.array_t.size = some 2 ∧
    (overloads.filter (fun o =>
        decide (o.set = OverloadSet.PythonConversionTypeConverter) &&
        decide (o.arg.capability = some Capability.Sized) &&
        decide (o.ret = CppType.array_t o.ret.element) &&
        decide (o.body ≠ Body.convertRandomSizedNumpy))).map Overload.line = [191] ∧
    (∀ t : random_range Bool,
      PythonConversionTypeConverter.call t = convertRandomSizedNumpy t) ∧
    (∀ t : random_range int64_t,
      PythonConversionTypeConverter.call t = convertRandomSizedNumpy t) ∧
    (∀ t : random_range uint256,
      PythonConversionTypeConverter.call t = convertRandomSizedNumpy t) := by
  refine ⟨rfl, fun _ _ _ => rfl, by decide, by decide, by decide, fun _ => rfl, fun _ => rfl,
    fun _ => rfl⟩

set_option maxRecDepth 100000 in
/-- C16: the table of overloads is dense.  Every overload takes a range, and for
every overload there is an overload of the same set for the same element kind
with the other capability whose export has the same element type. -/
theorem overloads_dense :
    ∀ o ∈ overloads,
      o.arg.capability.isSome = true ∧
      ∃ o' ∈ overloads, o'.set = o.set ∧ o'.arg.element = o.arg.element ∧
        o'.arg.capability = o.arg.capability.map Capability.other ∧
        o'.ret.element = o.ret.element := by
  decide

set_option maxRecDepth 100000 in
/-- C16 at an input: the overload for a sized range of timestamps, line 191; its
partner is the overload for a forward-only range of timestamps, line 180. -/
theorem overloads_dense_witness :
    Overload.mk 191 OverloadSet.PythonConversionTypeConverter
        (CppType.random_range CppType.time_point)
        (CppType.array_t CppType.NumpyDatetime)
        Body.convertInputNumpy ∈ overloads ∧
    ((CppType.random_range CppType.time_point).capability.isSome = true ∧
      ∃ o' ∈ overloads, o'.set = OverloadSet.PythonConversionTypeConverter ∧
        o'.arg.element = (CppType.random_range CppType.time_point).element ∧
        o'.arg.capability
          = (CppType.random_range CppType.time_point).capability.map Capability.other ∧
        o'.ret.element = (CppType.array_t CppType.NumpyDatetime).element) :=
  ⟨by decide, overloads_dense
    (Overload.mk 191 OverloadSet.PythonConversionTypeConverter
      (CppType.random_range CppType.time_point)
      (CppType.array_t CppType.NumpyDatetime)
      Body.convertInputNumpy) (by decide)⟩

set_option maxRecDepth 100000 in
/-- C17: for each of the four capability combinations of a range of ranges, and of
a range of optional ranges, the range the overload returns carries the
`Sequential` capability, also when both levels are sized; in the table every
overload of `ConvertedRangeTypeTagConverter` returns a forward-only view. -/
theorem join_and_flatten_return_sequential (T : Type) :
    (∀ t : random_range (random_range T),
      capabilityOf (ConvertedRangeTypeTagConverter.call t) = Capability.Sequential) ∧
    (∀ t : random_range (any_view T),
      capabilityOf (ConvertedRangeTypeTagConverter.call t) = Capability.Sequential) ∧
    (∀ t : any_view (random_range T),
      capabilityOf (ConvertedRangeTypeTagConverter.call t) = Capability.Sequential) ∧
    (∀ t : any_view (any_view T),
      capabilityOf (ConvertedRangeTypeTagConverter.call t) = Capability.Sequential) ∧
    (∀ t : random_range (Option (random_range T)),
      capabilityOf (ConvertedRangeTypeTagConverter.call t) = Capability.Sequential) ∧
    (∀ t : random_range (Option (any_view T)),
      capabilityOf (ConvertedRangeTypeTagConverter.call t) = Capability.Sequential) ∧
    (∀ t : any_view (Option (random_range T)),
      capabilityOf (ConvertedRangeTypeTagConverter.call t) = Capability.Sequential) ∧
    (∀ t : any_view (Option (any_view T)),
      capabilityOf (ConvertedRangeTypeTagConverter.call t) = Capability.Sequential) ∧
    (∀ o ∈ overloads, o.set = OverloadSet.ConvertedRangeTypeTagConverter →
      o.ret.capability = some Capability.Sequential) := by
  refine ⟨fun _ => rfl, fun _ => rfl, fun _ => rfl, fun _ => rfl, fun _ => rfl, fun _ => rfl,
    fun _ => rfl, fun _ => rfl, by decide⟩

/-- C18: for every sized range that reports the number of elements it yields,
the bulk path `convertRandomSizedNumpy` returns the array that the incremental
path `convertInputNumpy` returns: the same length and the same element at every
index. -/
theorem bulk_path_eq_incremental_path {T R : Type} [NumpyConverter T R] (t : random_range T)
    (h : t.size = t.elems.length) :
    convertRandomSizedNumpy t = some (convertInputNumpy t : pybind11.array_t R) ∧
    (convertRandomSizedNumpy t).map pybind11.array_t.size
      = some (convertInputNumpy t : pybind11.array_t R).size ∧
    (∀ i : Nat, (convertRandomSizedNumpy t).map (fun ret => ret.data[i]?)
      = some ((convertInputNumpy t : pybind11.array_t R).data[i]?)) := by
  have hin : (convertInputNumpy t : pybind11.array_t R)
      = ⟨t.elems.map (fun a => some (NumpyConverter.call a))⟩ := by
    have hd := convertInputNumpy_data (R := R) t
    simp only [Range.pulls] at hd
    cases hc : (convertInputNumpy t : pybind11.array_t R) with
    | mk data =>
      rw [hc] at hd
      simp only at hd
      rw [hd]
  have hb := convertRandomSizedNumpy_of_size_eq (R := R) t h
  rw [hb, hin]
  exact ⟨rfl, rfl, fun _ => rfl⟩

/-- C18 at an input: the sized range of booleans `[true, false]` reporting size 2. -/
theorem bulk_path_eq_incremental_path_witness :
    (⟨[true, false], 2⟩ : random_range Bool).size
      = (⟨[true, false], 2⟩ : random_range Bool).elems.length ∧
    (convertRandomSizedNumpy (⟨[true, false], 2⟩ : random_range Bool)
        = some (convertInputNumpy (⟨[true, false], 2⟩ : random_range Bool) :
            pybind11.array_t NumpyBool) ∧
      (convertRandomSizedNumpy (⟨[true, false], 2⟩ : random_range Bool)).map
          pybind11.array_t.size
        = some (convertInputNumpy (⟨[true, false], 2⟩ : random_range Bool) :
            pybind11.array_t NumpyBool).size ∧
      (∀ i : Nat, (convertRandomSizedNumpy (⟨[true, false], 2⟩ : random_range Bool)).map
          (fun ret => ret.data[i]?)
        = some ((convertInputNumpy (⟨[true, false], 2⟩ : random_range Bool) :
            pybind11.array_t NumpyBool).data[i]?))) :=
  ⟨rfl, bulk_path_eq_incremental_path ⟨[true, false], 2⟩ rfl⟩

/-- Pushing the bytes one by one onto an empty vector gives the bytes. -/
theorem foldl_push_bytes (l : List (Fin 256)) :
    l.foldl (fun data c => data ++ [c]) [] = l := by
  have h := foldl_push_eq_append l []
  simpa using h

/-- Loading the characters that `cast_char` made gives the bytes back. -/
theorem load_chars_cast_char (l : List (Fin 256)) :
    pybind11.load_chars (l.map pybind11.cast_char) = .ok l := by
  induction l with
  | nil => rfl
  | cons c rest ih =>
    simp only [List.map_cons, pybind11.load_chars, pybind11.cast_char, pybind11.load_char,
      c.isLt, dite_true]
    simp only [pybind11.cast_char] at ih
    rw [ih]

/-- The state `pickle_getstate` returns, and what `pickle_setstate` makes of it. -/
theorem pickle_roundtrip_generic {WIDTH : Nat} (construct : List (Fin 256) → base_blob WIDTH)
    (h : base_blob WIDTH) :
    pickle_getstate h = [pybind11.object.list (h.data.map (fun c => pybind11.object.str [c.val]))] ∧
    pickle_setstate construct (pickle_getstate h) = .ok (construct h.data) := by
  have hget : pickle_getstate h = [pybind11.cast_vector_char h.data] := by
    simp only [pickle_getstate, foldl_push_bytes]
  refine ⟨hget, ?_⟩
  rw [hget]
  simp only [pickle_setstate, List.length_singleton, ne_eq, not_true_eq_false, dite_false,
    List.get_eq_getElem, List.getElem_cons_zero, pybind11.cast_vector_char,
    pybind11.load_vector_char, load_chars_cast_char]

theorem base_blob_ofRange_data {WIDTH : Nat} (h : base_blob WIDTH) :
    base_blob.ofRange h.data = h := by
  unfold base_blob.ofRange
  rw [dif_pos h.size_eq]

/-- C19: pickling round-trips hash values, given that the constructor of a hash
from a range of bytes copies the bytes of a range of the right length.  For every
256-bit hash `h` (and every 160-bit hash), the first pickle function returns a
tuple of one item, the list of the 32 (respectively 20) bytes of `h` in storage
order, each byte as the one-character `str` pybind11 makes of a `char`; and the
second pickle function applied to that tuple returns `h`. -/
theorem pickle_roundtrip (construct256 : List (Fin 256) → uint256)
    (construct160 : List (Fin 256) → uint160)
    (h256 : ∀ h : uint256, construct256 h.data = h)
    (h160 : ∀ h : uint160, construct160 h.data = h) :
    (∀ h : uint256,
      (pickle_getstate h).length = 1 ∧
      (∃ items : List pybind11.object,
        pickle_getstate h = [pybind11.object.list items] ∧ items.length = 32 ∧
        items = h.data.map (fun c => pybind11.object.str [c.val])) ∧
      pickle_setstate construct256 (pickle_getstate h) = .ok h) ∧
    (∀ h : uint160,
      (pickle_getstate h).length = 1 ∧
      (∃ items : List pybind11.object,
        pickle_getstate h = [pybind11.object.list items] ∧ items.length = 20 ∧
        items = h.data.map (fun c => pybind11.object.str [c.val])) ∧
      pickle_setstate construct160 (pickle_getstate h) = .ok h) := by
  constructor
  · intro h
    have hg := pickle_roundtrip_generic construct256 h
    refine ⟨by rw [hg.1]; rfl, ⟨_, hg.1, by rw [List.length_map, h.size_eq], rfl⟩, ?_⟩
    rw [hg.2, h256]
  · intro h
    have hg := pickle_roundtrip_generic construct160 h
    refine ⟨by rw [hg.1]; rfl, ⟨_, hg.1, by rw [List.length_map, h.size_eq], rfl⟩, ?_⟩
    rw [hg.2, h160]

/-- C19 at an input: the constructor that copies a range of the right length. -/
theorem pickle_roundtrip_witness :
    (∀ h : uint256, (base_blob.ofRange h.data : uint256) = h) ∧
    (∀ h : uint160, (base_blob.ofRange h.data : uint160) = h) ∧
    ((∀ h : uint256,
      (pickle_getstate h).length = 1 ∧
      (∃ items : List pybind11.object,
        pickle_getstate h = [pybind11.object.list items] ∧ items.length = 32 ∧
        items = h.data.map (fun c => pybind11.object.str [c.val])) ∧
      pickle_setstate base_blob.ofRange (pickle_getstate h) = .ok h) ∧
    (∀ h : uint160,
      (pickle_getstate h).length = 1 ∧
      (∃ items : List pybind11.object,
        pickle_getstate h = [pybind11.object.list items] ∧ items.length = 20 ∧
        items = h.data.map (fun c => pybind11.object.str [c.val])) ∧
      pickle_setstate base_blob.ofRange (pickle_getstate h) = .ok h)) :=
  ⟨base_blob_ofRange_data, base_blob_ofRange_data,
    pickle_roundtrip base_blob.ofRange base_blob.ofRange base_blob_ofRange_data
      base_blob_ofRange_data⟩

theorem load_char_ne_runtime_error (src : pybind11.object) (what : String) :
    pybind11.load_char src ≠ .error (.runtime_error what) := by
  unfold pybind11.load_char
  split
  · simp
  · split <;> simp
  · simp
  · simp

theorem load_chars_ne_runtime_error (items : List pybind11.object) (what : String) :
    pybind11.load_chars items ≠ .error (.runtime_error what) := by
  induction items with
  | nil => simp [pybind11.load_chars]
  | cons item rest ih =>
    unfold pybind11.load_chars
    have hc := load_char_ne_runtime_error item what
    cases hitem : pybind11.load_char item with
    | error e =>
      rw [hitem] at hc
      simpa using hc
    | ok c =>
      cases hrest : pybind11.load_chars rest with
      | error e =>
        rw [hrest] at ih
        simpa using ih
      | ok cs => simp

theorem load_vector_char_ne_runtime_error (src : pybind11.object) (what : String) :
    pybind11.load_vector_char src ≠ .error (.runtime_error what) := by
  unfold pybind11.load_vector_char
  split
  · exact load_chars_ne_runtime_error _ what
  · simp

/-- C20: the second pickle function of the 256-bit and of the 160-bit hash (the
same body, at any width) leaves with the error "Invalid state!" exactly when the
state tuple does not have exactly one item: it does for the empty tuple and for
every tuple of two or more items, and for a tuple of one item it does not. -/
theorem pickle_setstate_invalid_state {WIDTH : Nat}
    (construct : List (Fin 256) → base_blob WIDTH) :
    (∀ t : List pybind11.object,
      pickle_setstate construct t = .error (.runtime_error "Invalid state!")
        ↔ t.length ≠ 1) ∧
    pickle_setstate construct [] = .error (.runtime_error "Invalid state!") ∧
    (∀ (a b : pybind11.object) (rest : List pybind11.object),
      pickle_setstate construct (a :: b :: rest) = .error (.runtime_error "Invalid state!")) ∧
    (∀ state : pybind11.object,
      pickle_setstate construct [state] ≠ .error (.runtime_error "Invalid state!")) := by
  have hone : ∀ state : pybind11.object,
      pickle_setstate construct [state] ≠ .error (.runtime_error "Invalid state!") := by
    intro state
    have hl := load_vector_char_ne_runtime_error state "Invalid state!"
    simp only [pickle_setstate, List.length_singleton, ne_eq, not_true_eq_false, dite_false,
      List.get_eq_getElem, List.getElem_cons_zero]
    cases hs : pybind11.load_vector_char state with
    | error e =>
      rw [hs] at hl
      simpa using hl
    | ok data => simp
  refine ⟨fun t => ⟨fun h hlen => ?_, fun hlen => ?_⟩, ?_, fun a b rest => ?_, hone⟩
  · match t, hlen with
    | [state], _ => exact hone state h
  · simp [pickle_setstate, hlen]
  · simp [pickle_setstate]
  · simp [pickle_setstate]

/-- When every entry holds a value, the held values wrapped again are the entries. -/
theorem filterMap_id_map_some_of_all_present {α : Type} (l : List (Option α))
    (h : ∀ o ∈ l, o.isSome = true) : (l.filterMap id).map some = l := by
  induction l with
  | nil => rfl
  | cons o rest ih =>
    have hrest := ih (fun x hx => h x (List.mem_cons_of_mem o hx))
    cases o with
    | none => exact absurd (h none (List.mem_cons_self none rest)) (by simp)
    | some x => simpa using hrest

/-- When every entry is absent, no held value is left. -/
theorem filterMap_id_of_all_absent {α : Type} (l : List (Option α))
    (h : ∀ o ∈ l, o = none) : l.filterMap id = [] := by
  induction l with
  | nil => rfl
  | cons o rest ih =>
    have hrest := ih (fun x hx => h x (List.mem_cons_of_mem o hx))
    have ho := h o (List.mem_cons_self o rest)
    subst ho
    simpa using hrest

/-- The generic statement behind C21, for any outer and inner kind of range: on
the present entries `inners`, wrapped, the flattening is the join of `inners`; on
absent entries alone it is empty. -/
theorem flattenNestedOptional_of_map_some {Rng Inner T : Type} [Range Rng (Option Inner)]
    [Range Inner T] (t : Rng) :
    (∀ inners : List Inner, Range.pulls t = inners.map some →
      (flattenNestedOptional t).elems = (inners.map (Range.pulls : Inner → List T)).flatten) ∧
    (∀ n : Nat, Range.pulls t = List.replicate n none → (flattenNestedOptional t).elems = []) := by
  have h := flattenNestedOptional_elems t
  constructor
  · intro inners hin
    rw [h, hin]
    simp [List.filterMap_map]
  · intro n hn
    rw [h, hn, filterMap_id_of_all_absent _ (fun o ho => (List.mem_replicate.mp ho).2)]
    rfl

/-- C21: for a range `present` of optional nested ranges in which every entry is
present, `flattenNestedOptional` yields what the join yields on the range of the
unwrapped inner ranges (the list `inners` with `inners.map some` the entries of
`present`); for a range `absent` in which every entry is absent it yields the
empty range.  The same on the four overloads: a range with the entries
`inners.map some` flattens to what the join overload returns on `inners`, and a
range of `n` absent entries flattens to the empty range. -/
theorem flattenNestedOptional_all_present_all_absent {Rng Inner T : Type}
    [Range Rng (Option Inner)] [Range Inner T] (present absent : Rng)
    (hp : ∀ o ∈ Range.pulls present, o.isSome = true)
    (ha : ∀ o ∈ Range.pulls absent, o = none) :
    (∃ inners : List Inner, Range.pulls present = inners.map some ∧
      (flattenNestedOptional present).elems = view_join (⟨inners⟩ : any_view Inner)) ∧
    (flattenNestedOptional absent).elems = [] ∧
    (∀ (inners : List (random_range T)) (size : Nat),
      (ConvertedRangeTypeTagConverter.call
        (⟨inners.map some, size⟩ : random_range (Option (random_range T)))).elems
      = (ConvertedRangeTypeTagConverter.call
        (⟨inners, size⟩ : random_range (random_range T))).elems) ∧
    (∀ (inners : List (any_view T)) (size : Nat),
      (ConvertedRangeTypeTagConverter.call
        (⟨inners.map some, size⟩ : random_range (Option (any_view T)))).elems
      = (ConvertedRangeTypeTagConverter.call
        (⟨inners, size⟩ : random_range (any_view T))).elems) ∧
    (∀ inners : List (random_range T),
      (ConvertedRangeTypeTagConverter.call
        (⟨inners.map some⟩ : any_view (Option (random_range T)))).elems
      = (ConvertedRangeTypeTagConverter.call
        (⟨inners⟩ : any_view (random_range T))).elems) ∧
    (∀ inners : List (any_view T),
      (ConvertedRangeTypeTagConverter.call
        (⟨inners.map some⟩ : any_view (Option (any_view T)))).elems
      = (ConvertedRangeTypeTagConverter.call
        (⟨inners⟩ : any_view (any_view T))).elems) ∧
    (∀ n size : Nat,
      (ConvertedRangeTypeTagConverter.call
        (⟨List.replicate n none, size⟩ : random_range (Option (random_range T)))).elems = []) ∧
    (∀ n size : Nat,
      (ConvertedRangeTypeTagConverter.call
        (⟨List.replicate n none, size⟩ : random_range (Option (any_view T)))).elems = []) ∧
    (∀ n : Nat,
      (ConvertedRangeTypeTagConverter.call
        (⟨List.replicate n none⟩ : any_view (Option (random_range T)))).elems = []) ∧
    (∀ n : Nat,
      (ConvertedRangeTypeTagConverter.call
        (⟨List.replicate n none⟩ : any_view (Option (any_view T)))).elems = []) := by
  refine ⟨⟨(Range.pulls present).filterMap id,
      (filterMap_id_map_some_of_all_present _ hp).symm,
      (flattenNestedOptional_spec present).2.2.1⟩, ?_, ?_, ?_, ?_, ?_, ?_, ?_, ?_, ?_⟩
  · rw [flattenNestedOptional_elems, filterMap_id_of_all_absent _ ha]
    rfl
  · intro inners size
    exact ((flattenNestedOptional_of_map_some
      (⟨inners.map some, size⟩ : random_range (Option (random_range T)))).1 inners rfl).trans
      (view_join_eq_flatten (⟨inners, size⟩ : random_range (random_range T))).symm
  · intro inners size
    exact ((flattenNestedOptional_of_map_some
      (⟨inners.map some, size⟩ : random_range (Option (any_view T)))).1 inners rfl).trans
      (view_join_eq_flatten (⟨inners, size⟩ : random_range (any_view T))).symm
  · intro inners
    exact ((flattenNestedOptional_of_map_some
      (⟨inners.map some⟩ : any_view (Option (random_range T)))).1 inners rfl).trans
      (view_join_eq_flatten (⟨inners⟩ : any_view (random_range T))).symm
  · intro inners
    exact ((flattenNestedOptional_of_map_some
      (⟨inners.map some⟩ : any_view (Option (any_view T)))).1 inners rfl).trans
      (view_join_eq_flatten (⟨inners⟩ : any_view (any_view T))).symm
  · intro n size
    exact (flattenNestedOptional_of_map_some
      (⟨List.replicate n none, size⟩ : random_range (Option (random_range T)))).2 n rfl
  · intro n size
    exact (flattenNestedOptional_of_map_some
      (⟨List.replicate n none, size⟩ : random_range (Option (any_view T)))).2 n rfl
  · intro n
    exact (flattenNestedOptional_of_map_some
      (⟨List.replicate n none⟩ : any_view (Option (random_range T)))).2 n rfl
  · intro n
    exact (flattenNestedOptional_of_map_some
      (⟨List.replicate n none⟩ : any_view (Option (any_view T)))).2 n rfl

/-- C21 at an input: the forward-only range `[Some [1, 2], Some [], Some [3]]`, in
which every entry is present, and the forward-only range `[None, None]`. -/
theorem flattenNestedOptional_all_present_all_absent_witness :
    (∀ o ∈ Range.pulls
        (⟨[some ⟨[1, 2]⟩, some ⟨[]⟩, some ⟨[3]⟩]⟩ : any_view (Option (any_view Nat))),
      o.isSome = true) ∧
    (∀ o ∈ Range.pulls (⟨[none, none]⟩ : any_view (Option (any_view Nat))), o = none) ∧
    (∃ inners : List (any_view Nat),
      Range.pulls (⟨[some ⟨[1, 2]⟩, some ⟨[]⟩, some ⟨[3]⟩]⟩ : any_view (Option (any_view Nat)))
        = inners.map some ∧
      (flattenNestedOptional
        (⟨[some ⟨[1, 2]⟩, some ⟨[]⟩, some ⟨[3]⟩]⟩ : any_view (Option (any_view Nat)))).elems
        = view_join (⟨inners⟩ : any_view (any_view Nat))) ∧
    (flattenNestedOptional (⟨[none, none]⟩ : any_view (Option (any_view Nat)))).elems = [] ∧
    (flattenNestedOptional
      (⟨[some ⟨[1, 2]⟩, some ⟨[]⟩, some ⟨[3]⟩]⟩ : any_view (Option (any_view Nat)))).elems
      = [1, 2, 3] ∧
    (ConvertedRangeTypeTagConverter.call
      (⟨[⟨[1, 2]⟩, ⟨[]⟩, ⟨[3]⟩]⟩ : any_view (any_view Nat))).elems = [1, 2, 3] :=
  ⟨by decide, by decide,
    (flattenNestedOptional_all_present_all_absent
      (⟨[some ⟨[1, 2]⟩, some ⟨[]⟩, some ⟨[3]⟩]⟩ : any_view (Option (any_view Nat)))
      (⟨[none, none]⟩ : any_view (Option (any_view Nat))) (by decide) (by decide)).1,
    (flattenNestedOptional_all_present_all_absent
      (⟨[some ⟨[1, 2]⟩, some ⟨[]⟩, some ⟨[3]⟩]⟩ : any_view (Option (any_view Nat)))
      (⟨[none, none]⟩ : any_view (Option (any_view Nat))) (by decide) (by decide)).2.1,
    by decide, by decide⟩

end BlockSci
